import Mathlib

/-!
# Document question-answering client

A shallow embedding of the request handlers of the React components
(`DocumentUpload.onDrop`, `QuestionAnswering.handleSubmit`,
`DocumentList.handleDelete`, `Dashboard.fetchDocuments`,
`Dashboard.fetchQueryHistory`), of the view `QueryHistory` and of the routes
of `App`, and the properties of the specification that concern them.

The handlers are asynchronous JavaScript functions.  They are embedded as
state transformers over one record `App` holding the `useState` cells of the
components, the state of the environment (backend, browser) and the trace of
the effects performed so far.  A computation may throw; the state survives a
throw, so `try / catch / finally` are ordinary combinators.  A promise that is
started but not awaited (the `on...` callbacks of the Dashboard) is run to
completion at the point where it is started; it only touches state cells the
caller does not touch afterwards.
-/

namespace DocQA

/-! ## JavaScript values -/

/-- JavaScript values as they arrive in response bodies and sit in state cells.
Numbers are the integers; an object is the list of its own properties, a key
being bound to its first occurrence. -/
inductive JsVal where
  | undefined
  | null
  | bool (b : Bool)
  | num (n : Int)
  | str (s : String)
  | arr (items : List JsVal)
  | obj (fields : List (String × JsVal))

namespace JsVal

/-- The test `v == null` of optional chaining: `v` is `null` or `undefined`. -/
def isNullish : JsVal → Bool
  | undefined => true
  | null => true
  | _ => false

/-- ToBoolean: what `v || d`, `v && d` and `!v` test. -/
def truthy : JsVal → Bool
  | undefined => false
  | null => false
  | bool b => b
  | num n => n != 0
  | str s => s != ""
  | arr _ => true
  | obj _ => true

/-- The expression `v || d`. -/
def orElse (v d : JsVal) : JsVal :=
  if v.truthy then v else d

/-- The length of a string in UTF-16 code units. -/
def utf16Length (s : String) : Nat :=
  (s.data.map (fun c => if c.val < 0x10000 then 1 else 2)).sum

/-- Value bound to `key` in a property list, `undefined` when there is none. -/
def lookup : List (String × JsVal) → String → JsVal
  | [], _ => undefined
  | (k, v) :: rest, key => if k = key then v else lookup rest key

/-- Assignment of a property: replaces the binding of `key`, or adds one. -/
def setField : List (String × JsVal) → String → JsVal → List (String × JsVal)
  | [], key, v => [(key, v)]
  | (k, w) :: rest, key, v =>
    if k = key then (k, v) :: rest else (k, w) :: setField rest key v

/-- Pairs each element with its index written as a property key. -/
def indexed (items : List JsVal) : List (String × JsVal) :=
  (List.range items.length).zip items |>.map (fun p => (toString p.1, p.2))

/-- The own enumerable properties of a value, which is what the spread
`{...v}` copies: the fields of an object, the elements of an array, the
characters of a string, nothing for the other values.  (A character outside
the Basic Multilingual Plane is kept whole under one index.) -/
def ownEntries : JsVal → List (String × JsVal)
  | obj fields => fields
  | arr items => indexed items
  | str s => indexed (s.data.map (fun c => str (String.singleton c)))
  | _ => []

/-- Property read on a value that is neither `null` nor `undefined`. -/
def member (v : JsVal) (key : String) : JsVal :=
  match v with
  | arr items => if key = "length" then num items.length else lookup (indexed items) key
  | str s => if key = "length" then num (utf16Length s) else lookup (ownEntries (str s)) key
  | obj fields => lookup fields key
  | _ => undefined

/-- The expression `v?.key`. -/
def getOpt (v : JsVal) (key : String) : JsVal :=
  if v.isNullish then undefined else member v key

mutual
/-- ToString, as applied by template literals. -/
def toJsString : JsVal → String
  | undefined => "undefined"
  | null => "null"
  | bool true => "true"
  | bool false => "false"
  | num n => toString n
  | str s => s
  | arr items => joinItems items
  | obj _ => "[object Object]"
termination_by structural v => v
/-- The body of `Array.prototype.join` with the separator `,`. -/
def joinItems : List JsVal → String
  | [] => ""
  | x :: rest =>
    (match x with
      | undefined => ""
      | null => ""
      | v => toJsString v)
    ++ (if rest.isEmpty then "" else ",") ++ joinItems rest
termination_by structural items => items
end

/-- The comparison `v === n` against a number literal. -/
def strictEqNum : JsVal → Int → Bool
  | num m, n => m == n
  | _, _ => false

/-- The comparison `v === s` against a string literal. -/
def strictEqStr : JsVal → String → Bool
  | str t, s => t == s
  | _, _ => false

end JsVal

/-- WhiteSpace and LineTerminator code points, the ones `trim` strips. -/
def isJsWhiteSpace (c : Char) : Bool :=
  let n := c.toNat
  n = 0x09 || n = 0x0A || n = 0x0B || n = 0x0C || n = 0x0D || n = 0x20 || n = 0xA0
    || n = 0x1680 || (0x2000 ≤ n && n ≤ 0x200A) || n = 0x2028 || n = 0x2029
    || n = 0x202F || n = 0x205F || n = 0x3000 || n = 0xFEFF

/-- The method `String.prototype.trim`. -/
def jsTrim (s : String) : String :=
  ⟨((s.data.dropWhile isJsWhiteSpace).reverse.dropWhile isJsWhiteSpace).reverse⟩

/-! ## Requests, responses and thrown values -/

/-- A browser `File`: the attributes the client and the dropzone look at. -/
structure File where
  name : String
  size : Nat
  type : String

inductive Method where
  | get
  | post
  | delete
  deriving DecidableEq

/-- The payload handed to axios. -/
inductive Body where
  | none
  | json (data : JsVal)
  | formData (entries : List (String × File))

structure Request where
  method : Method
  url : String
  body : Body
  headers : List (String × String)

/-- The part of an axios response the client reads. -/
structure HttpResponse where
  status : Nat
  data : JsVal

/-- The value an axios promise rejects with; `response` is absent when no
response was received at all. -/
structure AxiosError where
  response : Option HttpResponse

/-- How a request ends: the promise resolves with a response or rejects. -/
inductive HttpResult where
  | resolved (response : HttpResponse)
  | rejected (error : AxiosError)

/-- Values that reach a `catch` clause. -/
inductive Thrown where
  | typeError (message : String)
  | syntaxError (message : String)
  | error (message : String)
  | axios (error : AxiosError)

/-- The expression `error.response?.data?.detail`. -/
def errorDetail : Thrown → JsVal
  | Thrown.axios e =>
    match e.response with
    | some r => JsVal.getOpt r.data "detail"
    | none => JsVal.undefined
  | _ => JsVal.undefined

/-- The expression `v.key`, which throws on `null` and `undefined`. -/
def getProp (v : JsVal) (key : String) : Except Thrown JsVal :=
  if v.isNullish then
    Except.error (Thrown.typeError ("Cannot read properties of " ++ v.toJsString ++ " (reading " ++ key ++ ")"))
  else Except.ok (v.member key)

/-! ## Effects and state -/

/-- Effects visible outside the components, in the order they happen. -/
inductive Event where
  | request (req : Request) (res : HttpResult)
  | confirm (message : String) (answer : Bool)
  | toastSuccess (message : JsVal)
  | toastError (message : JsVal)
  | consoleError (label : String) (error : Thrown)
  | preventDefault

/-- The environment of the client: the backend behind axios, the user in front
of `window.confirm`, the clock behind `new Date()`.  It has a state of its own
and answers every request in some way. -/
structure Env (σ : Type) where
  http : σ → Request → HttpResult × σ
  confirm : σ → String → Bool × σ
  now : σ → Nat

/-- A conversation turn of `QuestionAnswering`. -/
structure Message where
  type : String
  content : JsVal
  responseTime : JsVal
  sourceDocuments : JsVal
  timestamp : Nat

/-- The state cells of the components, the environment and the trace. -/
structure App (σ : Type) where
  world : σ
  trace : List Event
  documents : JsVal
  queryHistory : JsVal
  question : String
  loading : Bool
  conversation : List Message
  uploading : Bool
  uploadedFiles : List (List (String × JsVal))

/-- A computation of the client: it may throw, and the state survives. -/
def Js (σ : Type) (α : Type) : Type :=
  App σ → Except Thrown α × App σ

namespace Js

variable {σ α β : Type}

def pure (a : α) : Js σ α :=
  fun app => (Except.ok a, app)

def bind (m : Js σ α) (f : α → Js σ β) : Js σ β :=
  fun app =>
    match m app with
    | (Except.ok a, app1) => f a app1
    | (Except.error e, app1) => (Except.error e, app1)

instance : Monad (Js σ) where
  pure := Js.pure
  bind := Js.bind

/-- The statement `try { body } catch (error) { handler }`. -/
def tryCatch (body : Js σ α) (handler : Thrown → Js σ α) : Js σ α :=
  fun app =>
    match body app with
    | (Except.ok a, app1) => (Except.ok a, app1)
    | (Except.error e, app1) => handler e app1

/-- The clause `finally { fin }` around a statement. -/
def tryFinally (body : Js σ α) (fin : Js σ Unit) : Js σ α :=
  fun app =>
    match body app with
    | (r, app1) =>
      match fin app1 with
      | (Except.ok _, app2) => (r, app2)
      | (Except.error e, app2) => (Except.error e, app2)

/-- Lifts a pure evaluation that may throw. -/
def ofExcept (r : Except Thrown α) : Js σ α :=
  fun app => (r, app)

/-- A call of an async function whose promise is dropped: the body runs, its
result and its rejection are not seen by the caller. -/
def detach (m : Js σ α) : Js σ Unit :=
  fun app => (Except.ok (), (m app).2)

def getState : Js σ (App σ) :=
  fun app => (Except.ok app, app)

def update (f : App σ → App σ) : Js σ Unit :=
  fun app => (Except.ok (), f app)

def emit (e : Event) : Js σ Unit :=
  update (fun app => { app with trace := app.trace ++ [e] })

end Js

open Js

variable {σ : Type}

/-- An axios call: the environment answers, the exchange is traced, and a
rejected promise throws at the `await`. -/
def axiosCall (env : Env σ) (req : Request) : Js σ HttpResponse :=
  fun app =>
    match env.http app.world req with
    | (HttpResult.resolved r, w) =>
      (Except.ok r, { app with world := w, trace := app.trace ++ [Event.request req (HttpResult.resolved r)] })
    | (HttpResult.rejected e, w) =>
      (Except.error (Thrown.axios e),
        { app with world := w, trace := app.trace ++ [Event.request req (HttpResult.rejected e)] })

/-- The call `window.confirm(message)`. -/
def windowConfirm (env : Env σ) (message : String) : Js σ Bool :=
  fun app =>
    match env.confirm app.world message with
    | (answer, w) =>
      (Except.ok answer, { app with world := w, trace := app.trace ++ [Event.confirm message answer] })

/-- The expression `new Date()`. -/
def newDate (env : Env σ) : Js σ Nat :=
  fun app => (Except.ok (env.now app.world), app)

/-- The guarded call `if (cb) { cb(); }` of a callback prop. -/
def callProp (cb : Option (Js σ Unit)) : Js σ Unit :=
  match cb with
  | some f => f
  | none => Js.pure ()

/-! ## Dashboard -/

def getRequest (url : String) : Request :=
  { method := Method.get, url := url, body := Body.none, headers := [] }

/-- The function `Dashboard.fetchDocuments`. -/
def fetchDocuments (env : Env σ) : Js σ Unit :=
  tryCatch
    (do
      let response ← axiosCall env (getRequest "/documents/")
      update (fun app => { app with documents := response.data }))
    (fun error => emit (Event.consoleError "Error fetching documents:" error))

/-- The function `Dashboard.fetchQueryHistory`. -/
def fetchQueryHistory (env : Env σ) : Js σ Unit :=
  tryCatch
    (do
      let response ← axiosCall env (getRequest "/qa/history")
      update (fun app => { app with queryHistory := response.data }))
    (fun error => emit (Event.consoleError "Error fetching query history:" error))

/-- The function `Dashboard.handleDocumentUpload`. -/
def handleDocumentUpload (env : Env σ) : Js σ Unit :=
  detach (fetchDocuments env)

/-- The function `Dashboard.handleDocumentDelete`. -/
def handleDocumentDelete (env : Env σ) : Js σ Unit :=
  detach (fetchDocuments env)

/-- The function `Dashboard.handleNewQuery`. -/
def handleNewQuery (env : Env σ) : Js σ Unit :=
  detach (fetchQueryHistory env)

/-! ## QuestionAnswering -/

/-- The call `axios.post('/qa/ask', { question: question.trim() })`. -/
def askRequest (question : String) : Request :=
  { method := Method.post, url := "/qa/ask",
    body := Body.json (JsVal.obj [("question", JsVal.str (jsTrim question))]), headers := [] }

def noDocumentsMessage : String :=
  "Please upload some documents first before asking questions."

/-- The function `QuestionAnswering.handleSubmit`, with the `documents` and `onNewQuery`
props; `documents` is the Dashboard cell of that name. -/
def handleSubmit (env : Env σ) (onNewQuery : Option (Js σ Unit)) : Js σ Unit := do
  emit Event.preventDefault
  let app ← getState
  let question := app.question
  let documents := app.documents
  if jsTrim question = "" then
    Js.pure ()
  else do
    let length ← ofExcept (getProp documents "length")
    if length.strictEqNum 0 then
      emit (Event.toastError (JsVal.str noDocumentsMessage))
    else do
      let userTime ← newDate env
      let userMessage : Message :=
        { type := "user", content := JsVal.str question, responseTime := JsVal.undefined,
          sourceDocuments := JsVal.undefined, timestamp := userTime }
      update (fun app => { app with conversation := app.conversation ++ [userMessage] })
      update (fun app => { app with loading := true })
      tryFinally
        (tryCatch
          (do
            let response ← axiosCall env (askRequest question)
            let answer ← ofExcept (getProp response.data "answer")
            let responseTime ← ofExcept (getProp response.data "response_time")
            let sourceDocuments ← ofExcept (getProp response.data "source_documents")
            let botTime ← newDate env
            let botMessage : Message :=
              { type := "bot", content := answer, responseTime := responseTime,
                sourceDocuments := sourceDocuments, timestamp := botTime }
            update (fun app => { app with conversation := app.conversation ++ [botMessage] })
            callProp onNewQuery)
          (fun error =>
            emit (Event.toastError ((errorDetail error).orElse (JsVal.str "Failed to get answer")))))
        (do
          update (fun app => { app with loading := false })
          update (fun app => { app with question := "" }))

/-! ## DocumentList -/

/-- The call `axios.delete` on the path of one document. -/
def deleteRequest (documentId : JsVal) : Request :=
  { method := Method.delete, url := "/documents/" ++ documentId.toJsString,
    body := Body.none, headers := [] }

def confirmDeleteMessage : String :=
  "Are you sure you want to delete this document?"

/-- The function `DocumentList.handleDelete`, with the `onDelete` prop. -/
def handleDelete (env : Env σ) (onDelete : Option (Js σ Unit)) (documentId : JsVal) : Js σ Unit := do
  let confirmed ← windowConfirm env confirmDeleteMessage
  if confirmed then
    tryCatch
      (do
        let _ ← axiosCall env (deleteRequest documentId)
        emit (Event.toastSuccess (JsVal.str "Document deleted successfully"))
        callProp onDelete)
      (fun error =>
        emit (Event.toastError ((errorDetail error).orElse (JsVal.str "Failed to delete document"))))
  else
    Js.pure ()

/-! ## DocumentUpload -/

/-- The call `axios.post('/documents/upload', formData, ...)` for one file. -/
def uploadRequest (file : File) : Request :=
  { method := Method.post, url := "/documents/upload",
    body := Body.formData [("file", file)],
    headers := [("Content-Type", "multipart/form-data")] }

/-- The object pushed after a successful upload:
`{...response.data, status: 'success', originalName: file.name}`. -/
def successEntry (file : File) (response : HttpResponse) : List (String × JsVal) :=
  JsVal.setField (JsVal.setField response.data.ownEntries "status" (JsVal.str "success"))
    "originalName" (JsVal.str file.name)

/-- The object pushed after a failed upload. -/
def errorEntry (file : File) (error : Thrown) : List (String × JsVal) :=
  [("name", JsVal.str file.name), ("status", JsVal.str "error"),
   ("error", (errorDetail error).orElse (JsVal.str "Upload failed"))]

def uploadSuccessMessage (file : File) : JsVal :=
  JsVal.str (file.name ++ " uploaded successfully!")

def uploadErrorMessage (file : File) (error : Thrown) : JsVal :=
  JsVal.str (file.name ++ ": " ++ ((errorDetail error).orElse (JsVal.str "Upload failed")).toJsString)

/-- One turn of the loop of `onDrop`: the `try / catch` around one upload.
Returns `newUploadedFiles` after the push. -/
def uploadOne (env : Env σ) (file : File) (newUploadedFiles : List (List (String × JsVal))) :
    Js σ (List (List (String × JsVal))) :=
  tryCatch
    (do
      let response ← axiosCall env (uploadRequest file)
      let pushed := newUploadedFiles ++ [successEntry file response]
      emit (Event.toastSuccess (uploadSuccessMessage file))
      Js.pure pushed)
    (fun error => do
      let pushed := newUploadedFiles ++ [errorEntry file error]
      emit (Event.toastError (uploadErrorMessage file error))
      Js.pure pushed)

/-- The loop `for (const file of acceptedFiles)` of `onDrop`. -/
def uploadLoop (env : Env σ) :
    List File → List (List (String × JsVal)) → Js σ (List (List (String × JsVal)))
  | [], newUploadedFiles => Js.pure newUploadedFiles
  | file :: rest, newUploadedFiles => do
    let pushed ← uploadOne env file newUploadedFiles
    uploadLoop env rest pushed

/-- The function `DocumentUpload.onDrop`, with the `onUpload` prop. -/
def onDrop (env : Env σ) (onUpload : Option (Js σ Unit)) (acceptedFiles : List File) : Js σ Unit := do
  update (fun app => { app with uploading := true })
  let newUploadedFiles ← uploadLoop env acceptedFiles []
  update (fun app => { app with uploadedFiles := app.uploadedFiles ++ newUploadedFiles })
  update (fun app => { app with uploading := false })
  callProp onUpload

/-- The options `DocumentUpload` passes to `useDropzone`. -/
structure DropzoneOptions where
  accept : List (String × List String)
  maxSize : Nat

def dropzoneOptions : DropzoneOptions :=
  { accept := [("text/plain", [".txt"]), ("application/pdf", [".pdf"])],
    maxSize := 10 * 1024 * 1024 }

/-- Whether the name of a file ends in the extension `ext`, letter case aside. -/
def hasExtension (file : File) (ext : String) : Bool :=
  (ext.data.map Char.toLower).isSuffixOf (file.name.data.map Char.toLower)

/-- Whether a file is of one of the types of an `accept` map: its MIME type is
a key of the map, or its name ends in one of the extensions listed. -/
def typeAccepted (accept : List (String × List String)) (file : File) : Bool :=
  accept.any (fun entry => file.type == entry.1 || entry.2.any (hasExtension file))

/-- Modelled from the spec: the filtering of dropped files, done by the
dropzone (the react-dropzone package, not under `src/`) before it calls
`onDrop`.  The spec has an upload reject "file types outside {pdf, txt}" and
"size > 10MB"; the source gives the two sets as the options `accept` and
`maxSize`. -/
def fileAccepted (options : DropzoneOptions) (file : File) : Bool :=
  typeAccepted options.accept file && decide (file.size ≤ options.maxSize)

/-- A drop of files on the zone of `DocumentUpload`: the dropzone keeps the
accepted files and hands them to `onDrop`. -/
def dropFiles (env : Env σ) (onUpload : Option (Js σ Unit)) (dropped : List File) : Js σ Unit :=
  onDrop env onUpload (dropped.filter (fileAccepted dropzoneOptions))

/-! ## Scripted environment -/

/-- An environment that follows a script: the outcomes of the requests to
come, the answers to the confirmations to come, and the clock.  A request
beyond the script gets no response. -/
structure Script where
  responses : List HttpResult
  confirms : List Bool
  clock : Nat

def networkError : AxiosError :=
  { response := none }

def scriptEnv : Env Script where
  http := fun s _ =>
    match s.responses with
    | [] => (HttpResult.rejected networkError, s)
    | r :: rest => (r, { s with responses := rest, clock := s.clock + 1 })
  confirm := fun s _ =>
    match s.confirms with
    | [] => (false, s)
    | c :: rest => (c, { s with confirms := rest })
  now := fun s => s.clock

/-- The state of a freshly mounted Dashboard in the world `w`. -/
def initialApp (w : σ) : App σ :=
  { world := w, trace := [], documents := JsVal.arr [], queryHistory := JsVal.arr [],
    question := "", loading := false, conversation := [], uploading := false,
    uploadedFiles := [] }

/-! ## QueryHistory: what React writes -/

mutual
/-- The text React writes for a child `{v}` of an element: nothing for
`undefined`, `null` and booleans, the elements in turn for an array; an object
is refused. -/
def childText : JsVal → Except Thrown String
  | JsVal.undefined => Except.ok ""
  | JsVal.null => Except.ok ""
  | JsVal.bool _ => Except.ok ""
  | JsVal.num n => Except.ok (toString n)
  | JsVal.str s => Except.ok s
  | JsVal.arr items => childrenText items
  | JsVal.obj _ => Except.error (Thrown.error "Objects are not valid as a React child")
termination_by structural v => v
def childrenText : List JsVal → Except Thrown String
  | [] => Except.ok ""
  | x :: rest =>
    match childText x with
    | Except.error e => Except.error e
    | Except.ok a =>
      match childrenText rest with
      | Except.error e => Except.error e
      | Except.ok b => Except.ok (a ++ b)
termination_by structural items => items
end

/-! ## A document store -/

/-- Modelled from the spec: a Document of the data model (the backend is not
under `src/`). -/
structure Document where
  id : Nat
  filename : String
  file_type : String
  uploaded_at : String

/-- The JSON object by which the backend shows a document. -/
def Document.toJs (d : Document) : JsVal :=
  JsVal.obj [("id", JsVal.num d.id), ("filename", JsVal.str d.filename),
    ("file_type", JsVal.str d.file_type), ("uploaded_at", JsVal.str d.uploaded_at)]

def documentPath (d : Document) : String :=
  "/documents/" ++ toString d.id

/-- Modelled from the spec: the Document Store behind `GET /documents/` and
`DELETE /documents/{id}` (the backend is not under `src/`): `list()` returns
all documents, `delete(id)` removes the document and fails with `NotFound` if
the id is unknown.  Other requests are answered 404.  In front of this store
the user confirms every deletion. -/
def documentStore : Env (List Document) where
  http := fun docs req =>
    match req.method with
    | Method.get =>
      if req.url = "/documents/" then
        (HttpResult.resolved { status := 200, data := JsVal.arr (docs.map Document.toJs) }, docs)
      else
        (HttpResult.rejected { response := some { status := 404, data := JsVal.obj [("detail", JsVal.str "Not Found")] } }, docs)
    | Method.delete =>
      if docs.any (fun d => documentPath d == req.url) then
        (HttpResult.resolved { status := 200, data := JsVal.obj [("message", JsVal.str "Document deleted successfully")] },
          docs.filter (fun d => !(documentPath d == req.url)))
      else
        (HttpResult.rejected { response := some { status := 404, data := JsVal.obj [("detail", JsVal.str "Document not found")] } }, docs)
    | Method.post =>
      (HttpResult.rejected { response := some { status := 404, data := JsVal.obj [("detail", JsVal.str "Not Found")] } }, docs)
  confirm := fun docs _ => (true, docs)
  now := fun _ => 0

/-- An environment reached over a network that may drop requests: each request
uses up one flag of the list, and a request whose flag is `false` gets no
response and does not reach the backend. -/
def unreliable (env : Env σ) : Env (σ × List Bool) where
  http := fun w req =>
    match w.2 with
    | false :: rest => (HttpResult.rejected networkError, (w.1, rest))
    | true :: rest => ((env.http w.1 req).1, ((env.http w.1 req).2, rest))
    | [] => ((env.http w.1 req).1, ((env.http w.1 req).2, []))
  confirm := fun w message => ((env.confirm w.1 message).1, ((env.confirm w.1 message).2, w.2))
  now := fun w => env.now w.1

/-- Whether a document with the number `id` as its `id` is among the elements
of the `documents` cell, which `DocumentList` maps to its rows. -/
def listsDocument (documents : JsVal) (id : Int) : Bool :=
  match documents with
  | JsVal.arr items => items.any (fun d => (d.getOpt "id").strictEqNum id)
  | _ => false

/-! ## Reading traces -/

namespace Event

def isToastError : Event → Bool
  | toastError _ => true
  | _ => false

def isToastSuccess : Event → Bool
  | toastSuccess _ => true
  | _ => false

/-- The request of a request event. -/
def request? : Event → Option Request
  | request req _ => some req
  | _ => none

/-- Whether the event is a request that was rejected. -/
def isRejected : Event → Bool
  | request _ (HttpResult.rejected _) => true
  | _ => false

end Event

/-- The requests issued in a stretch of the trace, in order. -/
def requestsOf (events : List Event) : List Request :=
  events.filterMap Event.request?

def Request.isUpload (req : Request) : Bool :=
  decide (req.method = Method.post) && req.url == "/documents/upload"

def Request.isAsk (req : Request) : Bool :=
  decide (req.method = Method.post) && req.url == "/qa/ask"

def Request.isDelete (req : Request) : Bool :=
  decide (req.method = Method.delete)

/-- The files carried by the upload requests of a stretch of the trace. -/
def postedFiles (events : List Event) : List File :=
  ((requestsOf events).filter Request.isUpload).flatMap
    (fun req =>
      match req.body with
      | Body.formData entries => entries.map Prod.snd
      | _ => [])

/-- The rejected upload requests of a stretch of the trace. -/
def failedUploads (events : List Event) : Nat :=
  events.countP (fun e => e.isRejected && (e.request?.map Request.isUpload).getD false)

/-- The `status` of an entry of `uploadedFiles`. -/
def entryStatus (entry : List (String × JsVal)) : JsVal :=
  JsVal.lookup entry "status"

def isSuccessEntry (entry : List (String × JsVal)) : Bool :=
  (entryStatus entry).strictEqStr "success"

def isErrorEntry (entry : List (String × JsVal)) : Bool :=
  (entryStatus entry).strictEqStr "error"

/-! ## One turn of the upload loop, described -/

/-- The entry one upload leaves in `newUploadedFiles`, by its outcome. -/
def uploadEntry (file : File) (res : HttpResult) : List (String × JsVal) :=
  match res with
  | HttpResult.resolved r => successEntry file r
  | HttpResult.rejected e => errorEntry file (Thrown.axios e)

/-- The notification one upload raises, by its outcome. -/
def uploadToast (file : File) (res : HttpResult) : Event :=
  match res with
  | HttpResult.resolved _ => Event.toastSuccess (uploadSuccessMessage file)
  | HttpResult.rejected e => Event.toastError (uploadErrorMessage file (Thrown.axios e))

/-- The effects of one upload, by its outcome: the request, then the
notification. -/
def uploadEvents (file : File) (res : HttpResult) : List Event :=
  [Event.request (uploadRequest file) res, uploadToast file res]

def HttpResult.isRejected : HttpResult → Bool
  | HttpResult.rejected _ => true
  | HttpResult.resolved _ => false

/-- The effects of `fetchDocuments` or `fetchQueryHistory`, by the outcome of
their request. -/
def fetchEvents (url label : String) (res : HttpResult) : List Event :=
  match res with
  | HttpResult.resolved r => [Event.request (getRequest url) (HttpResult.resolved r)]
  | HttpResult.rejected e =>
    [Event.request (getRequest url) (HttpResult.rejected e), Event.consoleError label (Thrown.axios e)]

/-- The outcomes the environment gives to the uploads of `files`, issued one
after the other from the world `w`. -/
def uploadResults (env : Env σ) : σ → List File → List HttpResult
  | _, [] => []
  | w, file :: rest =>
    (env.http w (uploadRequest file)).1 :: uploadResults env (env.http w (uploadRequest file)).2 rest

/-- The world after the uploads of `files`, issued one after the other from
the world `w`. -/
def worldAfterUploads (env : Env σ) : σ → List File → σ
  | w, [] => w
  | w, file :: rest => worldAfterUploads env (env.http w (uploadRequest file)).2 rest

/-! ## The turns of a conversation, described -/

/-- The user turn `handleSubmit` appends for `question` at time `time`. -/
def userTurn (question : String) (time : Nat) : Message :=
  { type := "user", content := JsVal.str question, responseTime := JsVal.undefined,
    sourceDocuments := JsVal.undefined, timestamp := time }

/-- The bot turn `handleSubmit` appends for a response body `data` that is
neither `null` nor `undefined`, at time `time`. -/
def botTurn (data : JsVal) (time : Nat) : Message :=
  { type := "bot", content := data.member "answer", responseTime := data.member "response_time",
    sourceDocuments := data.member "source_documents", timestamp := time }

/-! ## Sample data -/

/-- A response `200` with the body `data`. -/
def ok200 (data : JsVal) : HttpResult :=
  HttpResult.resolved { status := 200, data := data }

def notesTxt : File :=
  { name := "notes.txt", size := 2048, type := "text/plain" }

def paperPdf : File :=
  { name := "paper.pdf", size := 734003, type := "application/pdf" }

def scanPdf : File :=
  { name := "scan.pdf", size := 10 * 1024 * 1024 + 1, type := "application/pdf" }

def photoPng : File :=
  { name := "photo.png", size := 4096, type := "image/png" }

def notesDocument : Document :=
  { id := 1, filename := "notes.txt", file_type := "txt", uploaded_at := "2024-05-01T10:00:00" }

def paperDocument : Document :=
  { id := 2, filename := "paper.pdf", file_type := "pdf", uploaded_at := "2024-05-02T09:30:00" }

/-- The body of an answer of `/qa/ask`. -/
def sampleAnswer : JsVal :=
  JsVal.obj [("answer", JsVal.str "Forty-two."), ("response_time", JsVal.num 2),
    ("source_documents", JsVal.arr [JsVal.str "notes.txt"])]

/-- A mounted Dashboard in a scripted world, with the given `documents` cell
and the given text in the question box. -/
def scriptedApp (responses : List HttpResult) (confirms : List Bool) (documents : JsVal)
    (question : String) : App Script :=
  { initialApp { responses := responses, confirms := confirms, clock := 0 } with
    documents := documents, question := question }

/-- A mounted Dashboard in front of the document store holding the two sample
documents, reached over a network with the given flags; the `documents` cell
lists both documents. -/
def storeApp (flags : List Bool) : App (List Document × List Bool) :=
  { initialApp ([notesDocument, paperDocument], flags) with
    documents := JsVal.arr [notesDocument.toJs, paperDocument.toJs] }

/-- An error response `400` whose body carries the given `detail`. -/
def badRequest (detail : JsVal) : AxiosError :=
  { response := some { status := 400, data := JsVal.obj [("detail", detail)] } }

/-- A stand-in for `JSON.parse` that knows one text. -/
def sampleJsonParse (text : String) : Except Thrown JsVal :=
  if text = "[3, 7]" then Except.ok (JsVal.arr [JsVal.num 3, JsVal.num 7])
  else Except.error (Thrown.syntaxError "Unexpected token")

/-! ## App: the routes -/

/-- What the element of a route renders: one of the three pages, or the
redirect `<Navigate to=... />`. -/
inductive Page where
  | login
  | register
  | dashboard
  | navigate (target : String)
  deriving DecidableEq

/-- The component `ProtectedRoute`; `isAuthenticated` is what `useAuth()`
gives (the context is not under `src/`, so it is a parameter). -/
def ProtectedRoute (isAuthenticated : JsVal) (children : Page) : Page :=
  if isAuthenticated.truthy then children else Page.navigate "/login"

/-- The table `Routes` of `AppContent`: the paths and their elements, in the
order of the source. -/
def routes (isAuthenticated : JsVal) : List (String × Page) :=
  [("/login", if !isAuthenticated.truthy then Page.login else Page.navigate "/dashboard"),
   ("/register", if !isAuthenticated.truthy then Page.register else Page.navigate "/dashboard"),
   ("/dashboard", ProtectedRoute isAuthenticated Page.dashboard),
   ("/", Page.navigate (if isAuthenticated.truthy then "/dashboard" else "/login"))]

/-- The element rendered at a location: the one of the route whose path is the
location, none when no route has that path. -/
def routeElement (isAuthenticated : JsVal) (location : String) : Option Page :=
  ((routes isAuthenticated).find? (fun route => route.1 == location)).map Prod.snd

/-- The page a visit ends on: a `Navigate` element moves the location and the
routes are rendered again, at most `fuel` times in all. -/
def visit (isAuthenticated : JsVal) : Nat → String → Option Page
  | 0, _ => none
  | fuel + 1, location =>
    match routeElement isAuthenticated location with
    | some (Page.navigate target) => visit isAuthenticated fuel target
    | other => other

/-- The four paths of the routes. -/
def routePaths : List String :=
  ["/", "/login", "/register", "/dashboard"]

/-! ## Sequences of submits -/

/-- What the form of `QuestionAnswering` holds when it is submitted: the text
of the question box and the `documents` prop of that moment. -/
structure Submit where
  question : String
  documents : JsVal

/-- One submit, run to its end: the box holds the text, the Dashboard passes
the documents and its `handleNewQuery`, and `handleSubmit` is called. -/
def submitOnce (env : Env σ) (s : Submit) (app : App σ) : App σ :=
  (handleSubmit env (some (handleNewQuery env))
    { app with question := s.question, documents := s.documents }).2

/-- A sequence of submits, each run to its end before the next starts. -/
def submitAll (env : Env σ) : List Submit → App σ → App σ
  | [], app => app
  | s :: rest, app => submitAll env rest (submitOnce env s app)

/-- The test `message.type === 'user'`. -/
def Message.isUser (m : Message) : Bool :=
  m.type == "user"

/-- The test `message.type === 'bot'`. -/
def Message.isBot (m : Message) : Bool :=
  m.type == "bot"

/-- A block of a conversation: one user turn, or a user turn followed by one
bot turn. -/
def isBlock : List Message → Bool
  | [u] => u.isUser
  | [u, b] => u.isUser && b.isBot
  | _ => false

/-- Four submits in a row: a blank question, a question with no documents, a
question that will be answered, a question that will be rejected. -/
def sampleSubmits : List Submit :=
  [{ question := "  ", documents := JsVal.arr [notesDocument.toJs] },
   { question := "Why?", documents := JsVal.arr [] },
   { question := "Why?", documents := JsVal.arr [notesDocument.toJs] },
   { question := "How?", documents := JsVal.arr [notesDocument.toJs] }]

/-- A freshly mounted Dashboard whose backend will answer the first question,
return an empty history, and reject the second question. -/
def sampleSession : App Script :=
  scriptedApp
    [ok200 sampleAnswer, ok200 (JsVal.arr []),
     HttpResult.rejected (badRequest (JsVal.str "Service unavailable"))]
    [] (JsVal.arr []) ""

/-! ## QueryHistory: the entries -/

/-- The builtins of the engine that `QueryHistory` calls: `JSON.parse`,
`Number.prototype.toFixed` and, for `formatDate`, the text
`new Date(v).toLocaleDateString('en-US', options)` of a value. -/
structure Engine where
  jsonParse : String → Except Thrown JsVal
  toFixed : Int → Nat → String
  toLocaleDateString : JsVal → String

/-- The function `formatTime` of `QueryHistory`: `seconds.toFixed(2)` followed
by `s`.  Reading `toFixed` throws on `null` and `undefined`; only a number has
the method. -/
def formatTime (engine : Engine) (seconds : JsVal) : Except Thrown String :=
  match getProp seconds "toFixed" with
  | Except.error e => Except.error e
  | Except.ok _ =>
    match seconds with
    | JsVal.num n => Except.ok (engine.toFixed n 2 ++ "s")
    | _ => Except.error (Thrown.typeError "seconds.toFixed is not a function")

/-- The function `formatDate` of `QueryHistory`; it does not throw. -/
def formatDate (engine : Engine) (dateString : JsVal) : String :=
  engine.toLocaleDateString dateString

/-- The value of the expression `query.source_documents && (...)` of one entry,
before React writes it: the falsy `source_documents` itself, or the element of
the source count with its child `JSON.parse(query.source_documents).length`. -/
inductive SourceCell where
  | hidden (value : JsVal)
  | count (length : JsVal)

/-- The expression `query.source_documents && (...)` of one entry. -/
def sourceCell (jsonParse : String → Except Thrown JsVal) (query : JsVal) :
    Except Thrown SourceCell := do
  let sourceDocuments ← getProp query "source_documents"
  if sourceDocuments.truthy then
    let parsed ← jsonParse sourceDocuments.toJsString
    let length ← getProp parsed "length"
    Except.ok (SourceCell.count length)
  else
    Except.ok (SourceCell.hidden sourceDocuments)

/-- The text React writes for a source cell, `none` when it writes nothing. -/
def sourceCellText : SourceCell → Except Thrown (Option String)
  | SourceCell.count length =>
    match childText length with
    | Except.error e => Except.error e
    | Except.ok n => Except.ok (some (n ++ " source(s)"))
  | SourceCell.hidden (JsVal.num n) => Except.ok (some (toString n))
  | SourceCell.hidden _ => Except.ok none

/-- The element `history.map` builds for one record, as the body of the
component leaves it: the key, the children `{query.question}` and
`{query.response}`, the texts of `formatTime` and `formatDate`, the source
cell. -/
structure EntryElement where
  key : JsVal
  question : JsVal
  response : JsVal
  time : String
  date : String
  sources : SourceCell

/-- The callback of `history.map`: the element of one record. -/
def entryElement (engine : Engine) (query : JsVal) : Except Thrown EntryElement := do
  let key ← getProp query "id"
  let question ← getProp query "question"
  let response ← getProp query "response"
  let responseTime ← getProp query "response_time"
  let time ← formatTime engine responseTime
  let timestamp ← getProp query "timestamp"
  let sources ← sourceCell engine.jsonParse query
  Except.ok { key := key, question := question, response := response, time := time,
              date := formatDate engine timestamp, sources := sources }

/-- One entry of the history as it is shown. -/
structure HistoryEntry where
  key : JsVal
  question : String
  response : String
  time : String
  date : String
  sources : Option String

/-- The entry React writes for an element: its children become text. -/
def entryText (element : EntryElement) : Except Thrown HistoryEntry := do
  let question ← childText element.question
  let response ← childText element.response
  let sources ← sourceCellText element.sources
  Except.ok { key := element.key, question := question, response := response,
              time := element.time, date := element.date, sources := sources }

/-- `Array.prototype.map` with a callback that may throw: the elements are
visited in order and the first throw ends the visit. -/
def mapExcept {α β : Type} (f : α → Except Thrown β) : List α → Except Thrown (List β)
  | [] => Except.ok []
  | x :: rest =>
    match f x with
    | Except.error e => Except.error e
    | Except.ok y =>
      match mapExcept f rest with
      | Except.error e => Except.error e
      | Except.ok ys => Except.ok (y :: ys)

/-- The component `QueryHistory`, with the `history` prop: the entries it
shows.  An empty history shows the view without entries.  The body of the
component builds the elements of all records; React writes them afterwards. -/
def QueryHistory (engine : Engine) (history : JsVal) : Except Thrown (List HistoryEntry) := do
  let length ← getProp history "length"
  if length.strictEqNum 0 then
    Except.ok []
  else
    match history with
    | JsVal.arr records =>
      match mapExcept (entryElement engine) records with
      | Except.error e => Except.error e
      | Except.ok elements => mapExcept entryText elements
    | _ => Except.error (Thrown.typeError "history.map is not a function")

/-- Whether React can write a value as a child: anything but an object, or
an array that holds one. -/
def JsVal.renderable (v : JsVal) : Bool :=
  match childText v with
  | Except.ok _ => true
  | Except.error _ => false

/-- Whether a value is a number. -/
def JsVal.isNumber : JsVal → Bool
  | JsVal.num _ => true
  | _ => false

/-- Whether a `source_documents` is absent, `null`, the empty string, or a
string that `JSON.parse` turns into an array. -/
def sourcesWellFormed (engine : Engine) : JsVal → Bool
  | JsVal.undefined => true
  | JsVal.null => true
  | JsVal.str s =>
    s == "" ||
    (match engine.jsonParse s with
      | Except.ok (JsVal.arr _) => true
      | _ => false)
  | _ => false

/-- The preconditions on a record of the history: it is an object whose
`response_time` is a number and whose `source_documents` is absent, empty, or
a string that parses as a JSON array. -/
def meetsPreconditions (engine : Engine) (query : JsVal) : Bool :=
  match query with
  | JsVal.obj fields =>
    (JsVal.lookup fields "response_time").isNumber &&
    sourcesWellFormed engine (JsVal.lookup fields "source_documents")
  | _ => false

/-- Whether React can write the `question` and the `response` of a record as
children, as it can the strings of the data model. -/
def childrenWritable (query : JsVal) : Bool :=
  (query.member "question").renderable && (query.member "response").renderable

/-- A stand-in for the engine: the one-text `JSON.parse`, a `toFixed` for
whole numbers, dates left as they are written. -/
def sampleEngine : Engine :=
  { jsonParse := sampleJsonParse,
    toFixed := fun n digits => toString n ++ "." ++ String.mk (List.replicate digits '0'),
    toLocaleDateString := fun v => v.toJsString }

/-- A record with two sources. -/
def whyRecord : JsVal :=
  JsVal.obj [("id", JsVal.num 5), ("question", JsVal.str "Why?"), ("response", JsVal.str "Because."),
    ("response_time", JsVal.num 2), ("timestamp", JsVal.str "2024-05-02T09:30:00"),
    ("source_documents", JsVal.str "[3, 7]")]

/-- A record without sources. -/
def howRecord : JsVal :=
  JsVal.obj [("id", JsVal.num 6), ("question", JsVal.str "How?"), ("response", JsVal.str "Like so."),
    ("response_time", JsVal.num 1), ("timestamp", JsVal.str "2024-05-02T09:31:00")]

/-- A record whose `response_time` is `null`. -/
def untimedRecord : JsVal :=
  JsVal.obj [("id", JsVal.num 7), ("question", JsVal.str "When?"), ("response", JsVal.str "Soon."),
    ("response_time", JsVal.null), ("timestamp", JsVal.str "2024-05-02T09:32:00")]

/-- A record whose `source_documents` is not a JSON text. -/
def garbledRecord : JsVal :=
  JsVal.obj [("id", JsVal.num 8), ("question", JsVal.str "Where?"), ("response", JsVal.str "Here."),
    ("response_time", JsVal.num 3), ("timestamp", JsVal.str "2024-05-02T09:33:00"),
    ("source_documents", JsVal.str "notes.txt")]

/-- A record that meets the preconditions on `response_time` and
`source_documents`, and whose `question` is an object. -/
def nestedRecord : JsVal :=
  JsVal.obj [("id", JsVal.num 9), ("question", JsVal.obj [("text", JsVal.str "Why?")]),
    ("response", JsVal.str "Because."), ("response_time", JsVal.num 2),
    ("timestamp", JsVal.str "2024-05-02T09:34:00")]

/-- The entries of the two sample records, as the stand-in engine shows them. -/
def sampleEntries : List HistoryEntry :=
  [{ key := JsVal.num 5, question := "Why?", response := "Because.", time := "2.00s",
     date := "2024-05-02T09:30:00", sources := some "2 source(s)" },
   { key := JsVal.num 6, question := "How?", response := "Like so.", time := "1.00s",
     date := "2024-05-02T09:31:00", sources := none }]

/-! # Properties -/

section Properties

variable {α β : Type}

/-! ## Running computations -/

@[simp] theorem Js.bind_run (m : Js σ α) (f : α → Js σ β) (app : App σ) :
    (m >>= f) app =
      match m app with
      | (Except.ok a, app1) => f a app1
      | (Except.error e, app1) => (Except.error e, app1) := rfl

@[simp] theorem Js.pure_run (a : α) (app : App σ) : (Js.pure a : Js σ α) app = (Except.ok a, app) := rfl

@[simp] theorem Js.update_run (f : App σ → App σ) (app : App σ) :
    Js.update f app = (Except.ok (), f app) := rfl

@[simp] theorem Js.emit_run (e : Event) (app : App σ) :
    Js.emit e app = (Except.ok (), { app with trace := app.trace ++ [e] }) := rfl

@[simp] theorem Js.getState_run (app : App σ) : Js.getState app = (Except.ok app, app) := rfl

@[simp] theorem Js.ofExcept_run (r : Except Thrown α) (app : App σ) : Js.ofExcept r app = (r, app) := rfl

@[simp] theorem Js.detach_run (m : Js σ α) (app : App σ) :
    Js.detach m app = (Except.ok (), (m app).2) := rfl

@[simp] theorem Js.tryCatch_run (body : Js σ α) (handler : Thrown → Js σ α) (app : App σ) :
    Js.tryCatch body handler app =
      match body app with
      | (Except.ok a, app1) => (Except.ok a, app1)
      | (Except.error e, app1) => handler e app1 := rfl

@[simp] theorem Js.tryFinally_run (body : Js σ α) (fin : Js σ Unit) (app : App σ) :
    Js.tryFinally body fin app =
      match body app with
      | (r, app1) =>
        match fin app1 with
        | (Except.ok _, app2) => (r, app2)
        | (Except.error e, app2) => (Except.error e, app2) := rfl

@[simp] theorem newDate_run (env : Env σ) (app : App σ) :
    newDate env app = (Except.ok (env.now app.world), app) := rfl

@[simp] theorem callProp_none_run (app : App σ) :
    callProp (none : Option (Js σ Unit)) app = (Except.ok (), app) := rfl

@[simp] theorem callProp_some_run (f : Js σ Unit) (app : App σ) :
    callProp (some f) app = f app := rfl

theorem axiosCall_run (env : Env σ) (req : Request) (app : App σ) :
    axiosCall env req app =
      ((match (env.http app.world req).1 with
        | HttpResult.resolved r => Except.ok r
        | HttpResult.rejected e => Except.error (Thrown.axios e)),
       { app with world := (env.http app.world req).2,
                  trace := app.trace ++ [Event.request req (env.http app.world req).1] }) := by
  unfold axiosCall
  rcases h : env.http app.world req with ⟨res, w⟩
  cases res <;> rfl

theorem windowConfirm_run (env : Env σ) (message : String) (app : App σ) :
    windowConfirm env message app =
      (Except.ok (env.confirm app.world message).1,
       { app with world := (env.confirm app.world message).2,
                  trace := app.trace ++ [Event.confirm message (env.confirm app.world message).1] }) := rfl

/-! ## The Dashboard fetches -/

theorem fetchDocuments_run (env : Env σ) (app : App σ) :
    fetchDocuments env app =
      (Except.ok (),
       { app with
          world := (env.http app.world (getRequest "/documents/")).2,
          trace := app.trace ++
            fetchEvents "/documents/" "Error fetching documents:" (env.http app.world (getRequest "/documents/")).1,
          documents :=
            match (env.http app.world (getRequest "/documents/")).1 with
            | HttpResult.resolved r => r.data
            | HttpResult.rejected _ => app.documents }) := by
  unfold fetchDocuments
  simp only [Js.tryCatch_run, Js.bind_run, axiosCall_run]
  rcases h : env.http app.world (getRequest "/documents/") with ⟨res, w⟩
  cases res <;> simp [fetchEvents]

theorem fetchQueryHistory_run (env : Env σ) (app : App σ) :
    fetchQueryHistory env app =
      (Except.ok (),
       { app with
          world := (env.http app.world (getRequest "/qa/history")).2,
          trace := app.trace ++
            fetchEvents "/qa/history" "Error fetching query history:" (env.http app.world (getRequest "/qa/history")).1,
          queryHistory :=
            match (env.http app.world (getRequest "/qa/history")).1 with
            | HttpResult.resolved r => r.data
            | HttpResult.rejected _ => app.queryHistory }) := by
  unfold fetchQueryHistory
  simp only [Js.tryCatch_run, Js.bind_run, axiosCall_run]
  rcases h : env.http app.world (getRequest "/qa/history") with ⟨res, w⟩
  cases res <;> simp [fetchEvents]

/-! ## The upload loop -/

theorem uploadOne_run (env : Env σ) (file : File) (acc : List (List (String × JsVal))) (app : App σ) :
    uploadOne env file acc app =
      (Except.ok (acc ++ [uploadEntry file (env.http app.world (uploadRequest file)).1]),
        { app with world := (env.http app.world (uploadRequest file)).2,
                   trace := app.trace ++ uploadEvents file (env.http app.world (uploadRequest file)).1 }) := by
  unfold uploadOne
  simp only [Js.tryCatch_run, Js.bind_run, axiosCall_run]
  rcases h : env.http app.world (uploadRequest file) with ⟨res, w⟩
  cases res <;> simp [uploadEntry, uploadEvents, uploadToast]

theorem uploadResults_length (env : Env σ) (files : List File) (w : σ) :
    (uploadResults env w files).length = files.length := by
  induction files generalizing w with
  | nil => rfl
  | cons file rest ih => simp [uploadResults, ih]

theorem uploadLoop_run (env : Env σ) (files : List File) (acc : List (List (String × JsVal)))
    (app : App σ) :
    uploadLoop env files acc app =
      (Except.ok (acc ++ List.zipWith uploadEntry files (uploadResults env app.world files)),
        { app with world := worldAfterUploads env app.world files,
                   trace := app.trace ++
                     (List.zipWith uploadEvents files (uploadResults env app.world files)).flatten }) := by
  induction files generalizing acc app with
  | nil => simp [uploadLoop, uploadResults, worldAfterUploads]
  | cons file rest ih =>
    simp only [uploadLoop, Js.bind_run, uploadOne_run, ih, uploadResults, worldAfterUploads,
      List.zipWith_cons_cons, List.flatten_cons, List.append_assoc, List.singleton_append]

theorem onDrop_run (env : Env σ) (onUpload : Option (Js σ Unit)) (files : List File) (app : App σ) :
    onDrop env onUpload files app =
      callProp onUpload
        { app with
            world := worldAfterUploads env app.world files,
            trace := app.trace ++
              (List.zipWith uploadEvents files (uploadResults env app.world files)).flatten,
            uploading := false,
            uploadedFiles := app.uploadedFiles ++
              List.zipWith uploadEntry files (uploadResults env app.world files) } := by
  unfold onDrop
  simp [uploadLoop_run]

/-! ## Entries and events of the upload loop -/

theorem lookup_setField_same (fields : List (String × JsVal)) (key : String) (v : JsVal) :
    JsVal.lookup (JsVal.setField fields key v) key = v := by
  induction fields with
  | nil => simp [JsVal.setField, JsVal.lookup]
  | cons p rest ih =>
    obtain ⟨k, w⟩ := p
    by_cases h : k = key
    · simp [JsVal.setField, JsVal.lookup, h]
    · simp [JsVal.setField, JsVal.lookup, h, ih]

theorem lookup_setField_other (fields : List (String × JsVal)) (key other : String) (v : JsVal)
    (hne : key ≠ other) :
    JsVal.lookup (JsVal.setField fields key v) other = JsVal.lookup fields other := by
  induction fields with
  | nil => simp [JsVal.setField, JsVal.lookup, hne]
  | cons p rest ih =>
    obtain ⟨k, w⟩ := p
    by_cases h : k = key
    · subst h
      simp [JsVal.setField, JsVal.lookup, hne]
    · by_cases h2 : k = other
      · subst h2
        simp [JsVal.setField, JsVal.lookup, h]
      · simp [JsVal.setField, JsVal.lookup, h, h2, ih]

theorem entryStatus_successEntry (file : File) (r : HttpResponse) :
    entryStatus (successEntry file r) = JsVal.str "success" := by
  unfold entryStatus successEntry
  rw [lookup_setField_other _ _ _ _ (by decide), lookup_setField_same]

theorem entryStatus_errorEntry (file : File) (e : Thrown) :
    entryStatus (errorEntry file e) = JsVal.str "error" := by
  simp [entryStatus, errorEntry, JsVal.lookup]

theorem isErrorEntry_uploadEntry (file : File) (res : HttpResult) :
    isErrorEntry (uploadEntry file res) = res.isRejected := by
  cases res with
  | resolved r =>
    simp [isErrorEntry, uploadEntry, entryStatus_successEntry, JsVal.strictEqStr, HttpResult.isRejected]
  | rejected e =>
    simp [isErrorEntry, uploadEntry, entryStatus_errorEntry, JsVal.strictEqStr, HttpResult.isRejected]

theorem isSuccessEntry_uploadEntry (file : File) (res : HttpResult) :
    isSuccessEntry (uploadEntry file res) = !res.isRejected := by
  cases res with
  | resolved r =>
    simp [isSuccessEntry, uploadEntry, entryStatus_successEntry, JsVal.strictEqStr, HttpResult.isRejected]
  | rejected e =>
    simp [isSuccessEntry, uploadEntry, entryStatus_errorEntry, JsVal.strictEqStr, HttpResult.isRejected]

theorem isUpload_uploadRequest (file : File) : (uploadRequest file).isUpload = true := by
  simp [Request.isUpload, uploadRequest]

theorem countP_zipWith_uploadEntry (p : List (String × JsVal) → Bool) (q : HttpResult → Bool)
    (hpq : ∀ file res, p (uploadEntry file res) = q res)
    (files : List File) (results : List HttpResult) (hlen : results.length = files.length) :
    (List.zipWith uploadEntry files results).countP p = results.countP q := by
  induction files generalizing results with
  | nil =>
    cases results with
    | nil => rfl
    | cons r rs => simp at hlen
  | cons file rest ih =>
    cases results with
    | nil => simp at hlen
    | cons r rs =>
      simp only [List.length_cons, add_left_inj] at hlen
      simp only [List.zipWith_cons_cons, List.countP_cons, hpq, ih rs hlen]

theorem countP_flatten_uploadEvents (p : Event → Bool) (q : HttpResult → Bool)
    (hpq : ∀ file res, (uploadEvents file res).countP p = if q res then 1 else 0)
    (files : List File) (results : List HttpResult) (hlen : results.length = files.length) :
    (List.zipWith uploadEvents files results).flatten.countP p = results.countP q := by
  induction files generalizing results with
  | nil =>
    cases results with
    | nil => rfl
    | cons r rs => simp at hlen
  | cons file rest ih =>
    cases results with
    | nil => simp at hlen
    | cons r rs =>
      simp only [List.length_cons, add_left_inj] at hlen
      simp only [List.zipWith_cons_cons, List.flatten_cons, List.countP_append, hpq, ih rs hlen,
        List.countP_cons]
      omega

theorem countP_not_isRejected (results : List HttpResult) :
    results.countP (fun r => !r.isRejected) = results.length - results.countP HttpResult.isRejected := by
  induction results with
  | nil => rfl
  | cons r rs ih =>
    have hle : rs.countP HttpResult.isRejected ≤ rs.length := List.countP_le_length _
    cases r with
    | resolved x =>
      rw [List.countP_cons_of_pos _ _ (by rfl), List.countP_cons_of_neg _ _ (by simp [HttpResult.isRejected]),
        ih, List.length_cons]
      omega
    | rejected e =>
      rw [List.countP_cons_of_neg _ _ (by simp [HttpResult.isRejected]),
        List.countP_cons_of_pos _ _ (by rfl), ih, List.length_cons]
      omega

theorem requestsOf_append (xs ys : List Event) :
    requestsOf (xs ++ ys) = requestsOf xs ++ requestsOf ys := by
  simp [requestsOf]

theorem requestsOf_uploadEvents (files : List File) (results : List HttpResult)
    (hlen : results.length = files.length) :
    requestsOf (List.zipWith uploadEvents files results).flatten = files.map uploadRequest := by
  induction files generalizing results with
  | nil =>
    cases results with
    | nil => rfl
    | cons r rs => simp at hlen
  | cons file rest ih =>
    cases results with
    | nil => simp at hlen
    | cons r rs =>
      simp only [List.length_cons, add_left_inj] at hlen
      simp only [List.zipWith_cons_cons, List.flatten_cons, requestsOf_append, ih rs hlen, List.map_cons]
      cases r <;> simp [requestsOf, uploadEvents, uploadToast, Event.request?]

theorem requestsOf_fetchEvents (url label : String) (res : HttpResult) :
    requestsOf (fetchEvents url label res) = [getRequest url] := by
  cases res <;> simp [requestsOf, fetchEvents, Event.request?]

theorem filter_isUpload_map_uploadRequest (files : List File) :
    (files.map uploadRequest).filter Request.isUpload = files.map uploadRequest := by
  induction files with
  | nil => rfl
  | cons file rest ih => simp [List.filter_cons, isUpload_uploadRequest, ih]

theorem postedFiles_append (xs ys : List Event) :
    postedFiles (xs ++ ys) = postedFiles xs ++ postedFiles ys := by
  simp [postedFiles, requestsOf_append]

theorem files_of_uploadRequests (files : List File) :
    ((files.map uploadRequest).flatMap
      (fun req =>
        match req.body with
        | Body.formData entries => entries.map Prod.snd
        | _ => [])) = files := by
  induction files with
  | nil => rfl
  | cons file rest ih => simpa [uploadRequest] using ih

theorem postedFiles_uploadEvents (files : List File) (results : List HttpResult)
    (hlen : results.length = files.length) :
    postedFiles (List.zipWith uploadEvents files results).flatten = files := by
  unfold postedFiles
  rw [requestsOf_uploadEvents files results hlen, filter_isUpload_map_uploadRequest]
  exact files_of_uploadRequests files

theorem postedFiles_fetchEvents (url label : String) (res : HttpResult) :
    postedFiles (fetchEvents url label res) = [] := by
  simp [postedFiles, requestsOf_fetchEvents, getRequest, Request.isUpload]

theorem countP_isToastError_fetchEvents (url label : String) (res : HttpResult) :
    (fetchEvents url label res).countP Event.isToastError = 0 := by
  cases res <;> simp [fetchEvents, Event.isToastError]

theorem countP_isToastSuccess_fetchEvents (url label : String) (res : HttpResult) :
    (fetchEvents url label res).countP Event.isToastSuccess = 0 := by
  cases res <;> simp [fetchEvents, Event.isToastSuccess]

theorem failedUploads_append (xs ys : List Event) :
    failedUploads (xs ++ ys) = failedUploads xs + failedUploads ys := by
  simp [failedUploads]

theorem failedUploads_fetchEvents (url label : String) (res : HttpResult) :
    failedUploads (fetchEvents url label res) = 0 := by
  cases res <;>
    simp [failedUploads, fetchEvents, Event.isRejected, Event.request?, getRequest, Request.isUpload]

theorem failedUploads_uploadEvents (files : List File) (results : List HttpResult)
    (hlen : results.length = files.length) :
    failedUploads (List.zipWith uploadEvents files results).flatten
      = results.countP HttpResult.isRejected := by
  unfold failedUploads
  apply countP_flatten_uploadEvents _ _ _ files results hlen
  intro file res
  cases res <;>
    simp [uploadEvents, uploadToast, Event.isRejected, Event.request?, isUpload_uploadRequest,
      HttpResult.isRejected]

theorem toastErrors_uploadEvents (files : List File) (results : List HttpResult)
    (hlen : results.length = files.length) :
    (List.zipWith uploadEvents files results).flatten.countP Event.isToastError
      = results.countP HttpResult.isRejected := by
  apply countP_flatten_uploadEvents _ _ _ files results hlen
  intro file res
  cases res <;> simp [uploadEvents, uploadToast, Event.isToastError, HttpResult.isRejected]

theorem toastSuccesses_uploadEvents (files : List File) (results : List HttpResult)
    (hlen : results.length = files.length) :
    (List.zipWith uploadEvents files results).flatten.countP Event.isToastSuccess
      = results.countP (fun r => !r.isRejected) := by
  apply countP_flatten_uploadEvents _ _ _ files results hlen
  intro file res
  cases res <;> simp [uploadEvents, uploadToast, Event.isToastSuccess, HttpResult.isRejected]

/-- The state in which `onDrop` ends when the Dashboard supplies `onUpload`. -/
theorem onDrop_dashboard_run (env : Env σ) (files : List File) (app : App σ) :
    onDrop env (some (handleDocumentUpload env)) files app =
      (Except.ok (),
        (fetchDocuments env
          { app with
            world := worldAfterUploads env app.world files,
            trace := app.trace ++
              (List.zipWith uploadEvents files (uploadResults env app.world files)).flatten,
            uploading := false,
            uploadedFiles := app.uploadedFiles ++
              List.zipWith uploadEntry files (uploadResults env app.world files) }).2) := by
  rw [onDrop_run]
  rfl

/-- C1. For every batch of accepted files and every environment, `onDrop` (as the Dashboard
mounts it) appends one entry per file to `uploadedFiles` and issues one upload request per
file; with K the number of those requests that were rejected, K of the new entries have
status `error` and the others status `success`, and K error notifications and N-K success
notifications are raised.  The counts are functions of N and K alone. -/
theorem onDrop_batch_counts (env : Env σ) (files : List File) (app : App σ) :
    ∃ (entries : List (List (String × JsVal))) (events : List Event),
      (onDrop env (some (handleDocumentUpload env)) files app).2.uploadedFiles
        = app.uploadedFiles ++ entries ∧
      (onDrop env (some (handleDocumentUpload env)) files app).2.trace = app.trace ++ events ∧
      entries.length = files.length ∧
      ((requestsOf events).filter Request.isUpload).length = files.length ∧
      failedUploads events ≤ files.length ∧
      entries.countP isErrorEntry = failedUploads events ∧
      entries.countP isSuccessEntry = files.length - failedUploads events ∧
      events.countP Event.isToastError = failedUploads events ∧
      events.countP Event.isToastSuccess = files.length - failedUploads events := by
  have hlen := uploadResults_length env files app.world
  have hle : (uploadResults env app.world files).countP HttpResult.isRejected ≤ files.length := by
    rw [← hlen]
    exact List.countP_le_length _
  refine ⟨List.zipWith uploadEntry files (uploadResults env app.world files),
    (List.zipWith uploadEvents files (uploadResults env app.world files)).flatten ++
      fetchEvents "/documents/" "Error fetching documents:"
        (env.http (worldAfterUploads env app.world files) (getRequest "/documents/")).1,
    ?_, ?_, ?_, ?_, ?_, ?_, ?_, ?_, ?_⟩
  · rw [onDrop_dashboard_run, fetchDocuments_run]
  · rw [onDrop_dashboard_run, fetchDocuments_run]
    simp only [List.append_assoc]
  · simp [hlen]
  · rw [requestsOf_append, requestsOf_uploadEvents _ _ hlen, requestsOf_fetchEvents,
      List.filter_append, filter_isUpload_map_uploadRequest]
    simp [getRequest, Request.isUpload]
  · rw [failedUploads_append, failedUploads_fetchEvents, failedUploads_uploadEvents _ _ hlen]
    simpa using hle
  · rw [failedUploads_append, failedUploads_fetchEvents, failedUploads_uploadEvents _ _ hlen,
      countP_zipWith_uploadEntry _ _ isErrorEntry_uploadEntry _ _ hlen]
    rfl
  · rw [failedUploads_append, failedUploads_fetchEvents, failedUploads_uploadEvents _ _ hlen,
      countP_zipWith_uploadEntry _ _ isSuccessEntry_uploadEntry _ _ hlen, countP_not_isRejected, hlen]
    rfl
  · rw [failedUploads_append, failedUploads_fetchEvents, failedUploads_uploadEvents _ _ hlen,
      List.countP_append, countP_isToastError_fetchEvents, toastErrors_uploadEvents _ _ hlen]
  · rw [failedUploads_append, failedUploads_fetchEvents, failedUploads_uploadEvents _ _ hlen,
      List.countP_append, countP_isToastSuccess_fetchEvents, toastSuccesses_uploadEvents _ _ hlen,
      countP_not_isRejected, hlen]
    rfl

/-! ## `handleSubmit`, path by path -/

theorem handleSubmit_blank (env : Env σ) (cb : Option (Js σ Unit)) (app : App σ)
    (hblank : jsTrim app.question = "") :
    handleSubmit env cb app = (Except.ok (), { app with trace := app.trace ++ [Event.preventDefault] }) := by
  unfold handleSubmit
  simp [hblank]

theorem handleSubmit_nullish_documents (env : Env σ) (cb : Option (Js σ Unit)) (app : App σ)
    (hq : jsTrim app.question ≠ "") (hdocs : app.documents.isNullish = true) :
    ∃ e, handleSubmit env cb app =
      (Except.error e, { app with trace := app.trace ++ [Event.preventDefault] }) := by
  unfold handleSubmit
  simp [hq, getProp, hdocs]

theorem handleSubmit_no_documents (env : Env σ) (cb : Option (Js σ Unit)) (app : App σ)
    (hq : jsTrim app.question ≠ "") (hdocs : app.documents.isNullish = false)
    (hlen : (app.documents.member "length").strictEqNum 0 = true) :
    handleSubmit env cb app =
      (Except.ok (), { app with trace := app.trace ++
        [Event.preventDefault, Event.toastError (JsVal.str noDocumentsMessage)] }) := by
  unfold handleSubmit
  simp [hq, getProp, hdocs, hlen]

theorem handleSubmit_rejected (env : Env σ) (cb : Option (Js σ Unit)) (app : App σ)
    (hq : jsTrim app.question ≠ "") (hdocs : app.documents.isNullish = false)
    (hlen : (app.documents.member "length").strictEqNum 0 = false)
    (e : AxiosError) (w : σ)
    (hres : env.http app.world (askRequest app.question) = (HttpResult.rejected e, w)) :
    handleSubmit env cb app =
      (Except.ok (),
        { app with
            world := w,
            trace := app.trace ++
              [Event.preventDefault,
               Event.request (askRequest app.question) (HttpResult.rejected e),
               Event.toastError ((errorDetail (Thrown.axios e)).orElse (JsVal.str "Failed to get answer"))],
            conversation := app.conversation ++ [userTurn app.question (env.now app.world)],
            loading := false,
            question := "" }) := by
  unfold handleSubmit
  simp [hq, getProp, hdocs, hlen, axiosCall_run, hres, userTurn]

theorem handleSubmit_resolved_nullish (env : Env σ) (cb : Option (Js σ Unit)) (app : App σ)
    (hq : jsTrim app.question ≠ "") (hdocs : app.documents.isNullish = false)
    (hlen : (app.documents.member "length").strictEqNum 0 = false)
    (r : HttpResponse) (w : σ)
    (hres : env.http app.world (askRequest app.question) = (HttpResult.resolved r, w))
    (hdata : r.data.isNullish = true) :
    handleSubmit env cb app =
      (Except.ok (),
        { app with
            world := w,
            trace := app.trace ++
              [Event.preventDefault,
               Event.request (askRequest app.question) (HttpResult.resolved r),
               Event.toastError (JsVal.str "Failed to get answer")],
            conversation := app.conversation ++ [userTurn app.question (env.now app.world)],
            loading := false,
            question := "" }) := by
  unfold handleSubmit
  simp [hq, getProp, hdocs, hlen, axiosCall_run, hres, userTurn, hdata, errorDetail, JsVal.orElse,
    JsVal.truthy]

theorem handleSubmit_resolved (env : Env σ) (app : App σ)
    (hq : jsTrim app.question ≠ "") (hdocs : app.documents.isNullish = false)
    (hlen : (app.documents.member "length").strictEqNum 0 = false)
    (r : HttpResponse) (w : σ)
    (hres : env.http app.world (askRequest app.question) = (HttpResult.resolved r, w))
    (hdata : r.data.isNullish = false) :
    handleSubmit env (some (handleNewQuery env)) app =
      (Except.ok (),
        { app with
            world := (env.http w (getRequest "/qa/history")).2,
            trace := app.trace ++
              ([Event.preventDefault,
                Event.request (askRequest app.question) (HttpResult.resolved r)] ++
               fetchEvents "/qa/history" "Error fetching query history:"
                 (env.http w (getRequest "/qa/history")).1),
            queryHistory :=
              (match (env.http w (getRequest "/qa/history")).1 with
               | HttpResult.resolved r2 => r2.data
               | HttpResult.rejected _ => app.queryHistory),
            conversation := app.conversation ++
              [userTurn app.question (env.now app.world), botTurn r.data (env.now w)],
            loading := false,
            question := "" }) := by
  unfold handleSubmit
  simp [hq, getProp, hdocs, hlen, axiosCall_run, hres, userTurn, hdata, botTurn, handleNewQuery,
    fetchQueryHistory_run]

theorem nonempty_list_checks (d : JsVal) (ds : List JsVal) :
    (JsVal.arr (d :: ds)).isNullish = false ∧
      ((JsVal.arr (d :: ds)).member "length").strictEqNum 0 = false := by
  constructor
  · rfl
  · simp [JsVal.member, JsVal.strictEqNum]
    omega

theorem mem_zipWith_uploadEntry (files : List File) (results : List HttpResult)
    (entry : List (String × JsVal)) (hmem : entry ∈ List.zipWith uploadEntry files results) :
    ∃ g res, g ∈ files ∧ entry = uploadEntry g res := by
  induction files generalizing results with
  | nil => simp at hmem
  | cons file rest ih =>
    cases results with
    | nil => simp at hmem
    | cons r rs =>
      simp only [List.zipWith_cons_cons, List.mem_cons] at hmem
      rcases hmem with h | h
      · exact ⟨file, r, List.mem_cons_self _ _, h⟩
      · obtain ⟨g, res, hg, he⟩ := ih rs h
        exact ⟨g, res, List.mem_cons_of_mem _ hg, he⟩

/-- C2 (as amended). With an empty documents list, `handleSubmit` issues no request, leaves
the conversation and every other state cell as they are, and does not call `onNewQuery`
(the result is the same for every callback): all it does is cancel the form event and,
when the question is not blank, raise the no-documents error notification.  A blank
question returns before the documents check, without a notification. -/
theorem handleSubmit_empty_documents (env : Env σ) (onNewQuery : Option (Js σ Unit)) (app : App σ)
    (hdocs : app.documents = JsVal.arr []) :
    handleSubmit env onNewQuery app =
      (Except.ok (),
        { app with trace := app.trace ++
            (if jsTrim app.question = "" then [Event.preventDefault]
             else [Event.preventDefault, Event.toastError (JsVal.str noDocumentsMessage)]) }) := by
  by_cases hq : jsTrim app.question = ""
  · rw [handleSubmit_blank env onNewQuery app hq, if_pos hq]
  · rw [handleSubmit_no_documents env onNewQuery app hq (by rw [hdocs]; rfl) (by rw [hdocs]; rfl),
      if_neg hq]

/-- Witness of C2 (as amended): a question asked with no documents. -/
theorem handleSubmit_empty_documents_witness :
    (scriptedApp [ok200 sampleAnswer] [] (JsVal.arr []) "What is the answer?").documents = JsVal.arr [] ∧
    (handleSubmit scriptEnv (some (handleNewQuery scriptEnv))
        (scriptedApp [ok200 sampleAnswer] [] (JsVal.arr []) "What is the answer?")).2.trace
      = [Event.preventDefault, Event.toastError (JsVal.str noDocumentsMessage)] :=
  ⟨rfl, by
    rw [handleSubmit_empty_documents scriptEnv _
      (scriptedApp [ok200 sampleAnswer] [] (JsVal.arr []) "What is the answer?") rfl]
    rfl⟩

/-- Counterexample to C2 as stated: with an empty documents list and the blank question
of three spaces, `handleSubmit` raises no error notification at all. -/
theorem handleSubmit_blank_question_silent :
    (scriptedApp [] [] (JsVal.arr []) "   ").documents = JsVal.arr [] ∧
    (handleSubmit scriptEnv (some (handleNewQuery scriptEnv))
        (scriptedApp [] [] (JsVal.arr []) "   ")).2.trace = [Event.preventDefault] ∧
    (handleSubmit scriptEnv (some (handleNewQuery scriptEnv))
        (scriptedApp [] [] (JsVal.arr []) "   ")).2.trace.countP Event.isToastError = 0 :=
  ⟨rfl, rfl, rfl⟩

/-- C3. A dropped file larger than 10MB (10 * 1024 * 1024 bytes), or of a type outside the
`accept` map of the dropzone (text/plain with .txt, application/pdf with .pdf), is never
posted to /documents/upload, and every entry the drop records, a `success` entry in
particular, is the entry of another file of the drop. -/
theorem dropFiles_rejects (env : Env σ) (dropped : List File) (app : App σ) (file : File)
    (hbad : 10 * 1024 * 1024 < file.size ∨ typeAccepted dropzoneOptions.accept file = false) :
    ∃ (entries : List (List (String × JsVal))) (events : List Event),
      (dropFiles env (some (handleDocumentUpload env)) dropped app).2.uploadedFiles
        = app.uploadedFiles ++ entries ∧
      (dropFiles env (some (handleDocumentUpload env)) dropped app).2.trace = app.trace ++ events ∧
      file ∉ postedFiles events ∧
      ∀ entry ∈ entries, ∃ g res, g ∈ dropped ∧ g ≠ file ∧ entry = uploadEntry g res := by
  have hrej : fileAccepted dropzoneOptions file = false := by
    rcases hbad with h | h
    · have : ¬ file.size ≤ 10 * 1024 * 1024 := by omega
      simp [fileAccepted, dropzoneOptions, this]
    · simp [fileAccepted, h]
  have hlen := uploadResults_length env (dropped.filter (fileAccepted dropzoneOptions)) app.world
  refine ⟨List.zipWith uploadEntry (dropped.filter (fileAccepted dropzoneOptions))
      (uploadResults env app.world (dropped.filter (fileAccepted dropzoneOptions))),
    (List.zipWith uploadEvents (dropped.filter (fileAccepted dropzoneOptions))
      (uploadResults env app.world (dropped.filter (fileAccepted dropzoneOptions)))).flatten ++
      fetchEvents "/documents/" "Error fetching documents:"
        (env.http (worldAfterUploads env app.world (dropped.filter (fileAccepted dropzoneOptions)))
          (getRequest "/documents/")).1,
    ?_, ?_, ?_, ?_⟩
  · unfold dropFiles
    rw [onDrop_dashboard_run, fetchDocuments_run]
  · unfold dropFiles
    rw [onDrop_dashboard_run, fetchDocuments_run]
    simp only [List.append_assoc]
  · rw [postedFiles_append, postedFiles_uploadEvents _ _ hlen, postedFiles_fetchEvents,
      List.append_nil]
    intro hmem
    have := (List.mem_filter.mp hmem).2
    rw [hrej] at this
    exact Bool.false_ne_true this
  · intro entry hentry
    obtain ⟨g, res, hg, he⟩ := mem_zipWith_uploadEntry _ _ entry hentry
    refine ⟨g, res, (List.mem_filter.mp hg).1, ?_, he⟩
    intro heq
    have := (List.mem_filter.mp hg).2
    rw [heq, hrej] at this
    exact Bool.false_ne_true this

/-- Witness of C3: a drop of four files, one too large (`scanPdf`) and one of another type
(`photoPng`); neither is posted. -/
theorem dropFiles_rejects_witness :
    (10 * 1024 * 1024 < scanPdf.size ∧ typeAccepted dropzoneOptions.accept photoPng = false) ∧
    (∃ (entries : List (List (String × JsVal))) (events : List Event),
      (dropFiles scriptEnv (some (handleDocumentUpload scriptEnv)) [notesTxt, scanPdf, photoPng, paperPdf]
          (scriptedApp [ok200 notesDocument.toJs, ok200 paperDocument.toJs] [] (JsVal.arr []) "")).2.uploadedFiles
        = (scriptedApp [ok200 notesDocument.toJs, ok200 paperDocument.toJs] [] (JsVal.arr []) "").uploadedFiles
            ++ entries ∧
      (dropFiles scriptEnv (some (handleDocumentUpload scriptEnv)) [notesTxt, scanPdf, photoPng, paperPdf]
          (scriptedApp [ok200 notesDocument.toJs, ok200 paperDocument.toJs] [] (JsVal.arr []) "")).2.trace
        = (scriptedApp [ok200 notesDocument.toJs, ok200 paperDocument.toJs] [] (JsVal.arr []) "").trace
            ++ events ∧
      scanPdf ∉ postedFiles events ∧
      ∀ entry ∈ entries, ∃ g res,
        g ∈ [notesTxt, scanPdf, photoPng, paperPdf] ∧ g ≠ scanPdf ∧ entry = uploadEntry g res) ∧
    (∃ (entries : List (List (String × JsVal))) (events : List Event),
      (dropFiles scriptEnv (some (handleDocumentUpload scriptEnv)) [notesTxt, scanPdf, photoPng, paperPdf]
          (scriptedApp [ok200 notesDocument.toJs, ok200 paperDocument.toJs] [] (JsVal.arr []) "")).2.uploadedFiles
        = (scriptedApp [ok200 notesDocument.toJs, ok200 paperDocument.toJs] [] (JsVal.arr []) "").uploadedFiles
            ++ entries ∧
      (dropFiles scriptEnv (some (handleDocumentUpload scriptEnv)) [notesTxt, scanPdf, photoPng, paperPdf]
          (scriptedApp [ok200 notesDocument.toJs, ok200 paperDocument.toJs] [] (JsVal.arr []) "")).2.trace
        = (scriptedApp [ok200 notesDocument.toJs, ok200 paperDocument.toJs] [] (JsVal.arr []) "").trace
            ++ events ∧
      photoPng ∉ postedFiles events ∧
      ∀ entry ∈ entries, ∃ g res,
        g ∈ [notesTxt, scanPdf, photoPng, paperPdf] ∧ g ≠ photoPng ∧ entry = uploadEntry g res) :=
  ⟨⟨by decide, by decide⟩,
    dropFiles_rejects scriptEnv [notesTxt, scanPdf, photoPng, paperPdf]
      (scriptedApp [ok200 notesDocument.toJs, ok200 paperDocument.toJs] [] (JsVal.arr []) "")
      scanPdf (Or.inl (by decide)),
    dropFiles_rejects scriptEnv [notesTxt, scanPdf, photoPng, paperPdf]
      (scriptedApp [ok200 notesDocument.toJs, ok200 paperDocument.toJs] [] (JsVal.arr []) "")
      photoPng (Or.inr (by decide))⟩

/-! ## `handleDelete`, path by path -/

theorem handleDelete_declined (env : Env σ) (cb : Option (Js σ Unit)) (documentId : JsVal)
    (app : App σ) (w0 : σ)
    (hconfirm : env.confirm app.world confirmDeleteMessage = (false, w0)) :
    handleDelete env cb documentId app =
      (Except.ok (),
        { app with world := w0,
                   trace := app.trace ++ [Event.confirm confirmDeleteMessage false] }) := by
  unfold handleDelete
  simp [windowConfirm_run, hconfirm]

theorem handleDelete_rejected (env : Env σ) (cb : Option (Js σ Unit)) (documentId : JsVal)
    (app : App σ) (w0 w1 : σ) (e : AxiosError)
    (hconfirm : env.confirm app.world confirmDeleteMessage = (true, w0))
    (hres : env.http w0 (deleteRequest documentId) = (HttpResult.rejected e, w1)) :
    handleDelete env cb documentId app =
      (Except.ok (),
        { app with
            world := w1,
            trace := app.trace ++
              [Event.confirm confirmDeleteMessage true,
               Event.request (deleteRequest documentId) (HttpResult.rejected e),
               Event.toastError
                 ((errorDetail (Thrown.axios e)).orElse (JsVal.str "Failed to delete document"))] }) := by
  unfold handleDelete
  simp [windowConfirm_run, hconfirm, axiosCall_run, hres]

theorem handleDelete_resolved (env : Env σ) (documentId : JsVal)
    (app : App σ) (w0 w1 : σ) (r : HttpResponse)
    (hconfirm : env.confirm app.world confirmDeleteMessage = (true, w0))
    (hres : env.http w0 (deleteRequest documentId) = (HttpResult.resolved r, w1)) :
    handleDelete env (some (handleDocumentDelete env)) documentId app =
      (Except.ok (),
        { app with
            world := (env.http w1 (getRequest "/documents/")).2,
            trace := app.trace ++
              ([Event.confirm confirmDeleteMessage true,
                Event.request (deleteRequest documentId) (HttpResult.resolved r),
                Event.toastSuccess (JsVal.str "Document deleted successfully")] ++
               fetchEvents "/documents/" "Error fetching documents:"
                 (env.http w1 (getRequest "/documents/")).1),
            documents :=
              (match (env.http w1 (getRequest "/documents/")).1 with
               | HttpResult.resolved r2 => r2.data
               | HttpResult.rejected _ => app.documents) }) := by
  unfold handleDelete
  simp [windowConfirm_run, hconfirm, axiosCall_run, hres, handleDocumentDelete, fetchDocuments_run]

/-- C4 (as amended). A non-blank question submitted with a non-empty documents list, whose
POST /qa/ask succeeds with a response body other than `null` and `undefined` (the object
of the contract in particular): `handleSubmit` completes, appends to the conversation
exactly the user turn holding the question followed by the bot turn holding the `answer`,
`response_time` and `source_documents` of the body, and the requests it causes are that
POST followed by exactly one GET /qa/history, the re-fetch `onNewQuery` stands for in the
Dashboard. -/
theorem handleSubmit_success (env : Env σ) (app : App σ) (d : JsVal) (ds : List JsVal)
    (r : HttpResponse) (w : σ)
    (hq : jsTrim app.question ≠ "")
    (hdocs : app.documents = JsVal.arr (d :: ds))
    (hres : env.http app.world (askRequest app.question) = (HttpResult.resolved r, w))
    (hdata : r.data.isNullish = false) :
    ∃ events : List Event,
      (handleSubmit env (some (handleNewQuery env)) app).1 = Except.ok () ∧
      (handleSubmit env (some (handleNewQuery env)) app).2.trace = app.trace ++ events ∧
      requestsOf events = [askRequest app.question, getRequest "/qa/history"] ∧
      (handleSubmit env (some (handleNewQuery env)) app).2.conversation =
        app.conversation ++
          [{ type := "user", content := JsVal.str app.question, responseTime := JsVal.undefined,
             sourceDocuments := JsVal.undefined, timestamp := env.now app.world },
           { type := "bot", content := r.data.member "answer",
             responseTime := r.data.member "response_time",
             sourceDocuments := r.data.member "source_documents", timestamp := env.now w }] := by
  have hchk := nonempty_list_checks d ds
  rw [← hdocs] at hchk
  rw [handleSubmit_resolved env app hq hchk.1 hchk.2 r w hres hdata]
  refine ⟨_, rfl, rfl, ?_, rfl⟩
  rw [requestsOf_append, requestsOf_fetchEvents]
  rfl

/-- Witness of C4: one question asked about one document. -/
theorem handleSubmit_success_witness :
    (handleSubmit scriptEnv (some (handleNewQuery scriptEnv))
        (scriptedApp [ok200 sampleAnswer, ok200 (JsVal.arr [])] [] (JsVal.arr [notesDocument.toJs])
          " What is the answer? ")).2.conversation.map (fun m => (m.type, m.timestamp))
      = [("user", 0), ("bot", 1)] ∧
    ∃ events : List Event,
      (handleSubmit scriptEnv (some (handleNewQuery scriptEnv))
        (scriptedApp [ok200 sampleAnswer, ok200 (JsVal.arr [])] [] (JsVal.arr [notesDocument.toJs])
          " What is the answer? ")).1 = Except.ok () ∧
      (handleSubmit scriptEnv (some (handleNewQuery scriptEnv))
        (scriptedApp [ok200 sampleAnswer, ok200 (JsVal.arr [])] [] (JsVal.arr [notesDocument.toJs])
          " What is the answer? ")).2.trace = [] ++ events ∧
      requestsOf events = [askRequest " What is the answer? ", getRequest "/qa/history"] ∧
      (handleSubmit scriptEnv (some (handleNewQuery scriptEnv))
        (scriptedApp [ok200 sampleAnswer, ok200 (JsVal.arr [])] [] (JsVal.arr [notesDocument.toJs])
          " What is the answer? ")).2.conversation =
        [] ++
          [{ type := "user", content := JsVal.str " What is the answer? ",
             responseTime := JsVal.undefined, sourceDocuments := JsVal.undefined, timestamp := 0 },
           { type := "bot", content := JsVal.str "Forty-two.", responseTime := JsVal.num 2,
             sourceDocuments := JsVal.arr [JsVal.str "notes.txt"], timestamp := 1 }] :=
  ⟨by decide,
    handleSubmit_success scriptEnv
      (scriptedApp [ok200 sampleAnswer, ok200 (JsVal.arr [])] [] (JsVal.arr [notesDocument.toJs])
        " What is the answer? ")
      notesDocument.toJs [] { status := 200, data := sampleAnswer }
      { responses := [ok200 (JsVal.arr [])], confirms := [], clock := 1 }
      (by decide) rfl rfl rfl⟩

/-- Counterexample to C4 as stated: a non-blank question, one document, and a POST /qa/ask
that succeeds with the body `null`.  Reading `response.data.answer` throws inside the
`try`; the conversation gets the user turn alone, `onNewQuery` is not called (no GET
/qa/history follows the POST) and the user is told `Failed to get answer`. -/
theorem handleSubmit_null_body :
    (handleSubmit scriptEnv (some (handleNewQuery scriptEnv))
        (scriptedApp [ok200 JsVal.null, ok200 (JsVal.arr [])] []
          (JsVal.arr [notesDocument.toJs]) "Why?")).2.conversation.map (fun m => m.type)
      = ["user"] ∧
    (handleSubmit scriptEnv (some (handleNewQuery scriptEnv))
        (scriptedApp [ok200 JsVal.null, ok200 (JsVal.arr [])] []
          (JsVal.arr [notesDocument.toJs]) "Why?")).2.trace
      = [Event.preventDefault,
         Event.request (askRequest "Why?") (ok200 JsVal.null),
         Event.toastError (JsVal.str "Failed to get answer")] ∧
    requestsOf
      (handleSubmit scriptEnv (some (handleNewQuery scriptEnv))
        (scriptedApp [ok200 JsVal.null, ok200 (JsVal.arr [])] []
          (JsVal.arr [notesDocument.toJs]) "Why?")).2.trace
      = [askRequest "Why?"] :=
  ⟨by decide, rfl, rfl⟩

/-- C5 (as amended). After `handleDelete(id)` is confirmed and DELETE /documents/id succeeds,
and the GET /documents/ that `onDelete` starts succeeds as well, the `documents` cell of the
Dashboard is the list that GET returned; against a store that removed the document, so that
the list returned does not hold it, the document is no longer in the cell. -/
theorem handleDelete_refreshes (env : Env σ) (app : App σ) (id : Int) (w0 w1 w2 : σ)
    (r1 r2 : HttpResponse)
    (hconfirm : env.confirm app.world confirmDeleteMessage = (true, w0))
    (hdelete : env.http w0 (deleteRequest (JsVal.num id)) = (HttpResult.resolved r1, w1))
    (hlist : env.http w1 (getRequest "/documents/") = (HttpResult.resolved r2, w2))
    (hgone : listsDocument r2.data id = false) :
    (handleDelete env (some (handleDocumentDelete env)) (JsVal.num id) app).2.documents = r2.data ∧
    listsDocument
      (handleDelete env (some (handleDocumentDelete env)) (JsVal.num id) app).2.documents id = false := by
  rw [handleDelete_resolved env (JsVal.num id) app w0 w1 r1 hconfirm hdelete]
  simp only [hlist]
  exact ⟨trivial, hgone⟩

/-- Witness of C5 (as amended): the first sample document deleted from the store, over a
network that works. -/
theorem handleDelete_refreshes_witness :
    listsDocument (storeApp []).documents 1 = true ∧
    (handleDelete (unreliable documentStore) (some (handleDocumentDelete (unreliable documentStore)))
        (JsVal.num 1) (storeApp [])).2.documents = JsVal.arr [paperDocument.toJs] ∧
    listsDocument
      (handleDelete (unreliable documentStore) (some (handleDocumentDelete (unreliable documentStore)))
        (JsVal.num 1) (storeApp [])).2.documents 1 = false :=
  ⟨by decide,
    handleDelete_refreshes (unreliable documentStore) (storeApp []) 1
      ([notesDocument, paperDocument], []) ([paperDocument], []) ([paperDocument], [])
      { status := 200, data := JsVal.obj [("message", JsVal.str "Document deleted successfully")] }
      { status := 200, data := JsVal.arr [paperDocument.toJs] }
      rfl rfl rfl (by decide)⟩

/-- Counterexample to C5 as stated: the deletion of the first sample document is confirmed
and succeeds, the store no longer holds the document, but the GET /documents/ that follows
gets no response; `fetchDocuments` logs the error and the Dashboard goes on listing the
document. -/
theorem handleDelete_stale_list :
    (handleDelete (unreliable documentStore) (some (handleDocumentDelete (unreliable documentStore)))
        (JsVal.num 1) (storeApp [true, false])).2.world.1 = [paperDocument] ∧
    requestsOf
      (handleDelete (unreliable documentStore) (some (handleDocumentDelete (unreliable documentStore)))
        (JsVal.num 1) (storeApp [true, false])).2.trace
      = [deleteRequest (JsVal.num 1), getRequest "/documents/"] ∧
    (handleDelete (unreliable documentStore) (some (handleDocumentDelete (unreliable documentStore)))
        (JsVal.num 1) (storeApp [true, false])).2.trace.map Event.isRejected
      = [false, false, false, true, false] ∧
    listsDocument
      (handleDelete (unreliable documentStore) (some (handleDocumentDelete (unreliable documentStore)))
        (JsVal.num 1) (storeApp [true, false])).2.documents 1 = true :=
  ⟨rfl, rfl, rfl, rfl⟩

/-! ## Which upload an event belongs to -/

theorem uploadRequest_injective (g file : File) (h : uploadRequest g = uploadRequest file) :
    g = file := by
  simpa [uploadRequest] using h

theorem mem_uploadEvents_flatten (files : List File) (results : List HttpResult) (ev : Event)
    (hmem : ev ∈ (List.zipWith uploadEvents files results).flatten) :
    ∃ g res, ev ∈ uploadEvents g res ∧
      uploadEntry g res ∈ List.zipWith uploadEntry files results ∧
      uploadToast g res ∈ (List.zipWith uploadEvents files results).flatten := by
  induction files generalizing results with
  | nil => simp at hmem
  | cons file rest ih =>
    cases results with
    | nil => simp at hmem
    | cons r rs =>
      simp only [List.zipWith_cons_cons, List.flatten_cons, List.mem_append] at hmem
      rcases hmem with h | h
      · refine ⟨file, r, h, ?_, ?_⟩
        · simp
        · simp [uploadEvents]
      · obtain ⟨g, res, h1, h2, h3⟩ := ih rs h
        refine ⟨g, res, h1, ?_, ?_⟩
        · simp only [List.zipWith_cons_cons, List.mem_cons]
          exact Or.inr h2
        · simp only [List.zipWith_cons_cons, List.flatten_cons, List.mem_append]
          exact Or.inr h3

/-- A rejected upload recorded in the trace of a batch has its entry and its notification. -/
theorem rejected_upload_recorded (files : List File) (results : List HttpResult)
    (tail : List Event) (htail : ∀ req res, Event.request req res ∈ tail → req.isUpload = false)
    (file : File) (err : AxiosError)
    (hmem : Event.request (uploadRequest file) (HttpResult.rejected err)
      ∈ (List.zipWith uploadEvents files results).flatten ++ tail) :
    errorEntry file (Thrown.axios err) ∈ List.zipWith uploadEntry files results ∧
    Event.toastError (uploadErrorMessage file (Thrown.axios err))
      ∈ (List.zipWith uploadEvents files results).flatten ++ tail := by
  rcases List.mem_append.mp hmem with h | h
  · obtain ⟨g, res, h1, h2, h3⟩ := mem_uploadEvents_flatten files results _ h
    have hev : uploadRequest file = uploadRequest g ∧ HttpResult.rejected err = res := by
      cases res <;> simp [uploadEvents, uploadToast] at h1
      exact ⟨h1.1, by rw [h1.2]⟩
    have hg : g = file := uploadRequest_injective g file hev.1.symm
    subst hg
    rw [← hev.2] at h2 h3
    exact ⟨h2, List.mem_append.mpr (Or.inl h3)⟩
  · have := htail _ _ h
    rw [isUpload_uploadRequest] at this
    exact absurd this (by decide)

theorem fetchEvents_no_upload (url label : String) (res0 : HttpResult) :
    ∀ req res, Event.request req res ∈ fetchEvents url label res0 → req.isUpload = false := by
  intro req res hmem
  cases res0 <;> simp [fetchEvents] at hmem <;>
    · rw [hmem.1]
      simp [Request.isUpload, getRequest]

/-- C6 (as amended). For a request rejected with the error `err`, write `detail` for
`err.response?.data?.detail`.  When `detail` is truthy, `handleSubmit` and `handleDelete`
pass exactly `detail` to `toast.error`, and `onDrop` records exactly `detail` as the `error`
of the failed entry and shows it, after the file name, in its notification.  When `detail`
is absent or falsy (the empty string, `0`, `false`, `null`), the fallback texts
`Failed to get answer`, `Failed to delete document` and `Upload failed` take its place. -/
theorem failure_detail_surfaced (env : Env σ) (err : AxiosError) :
    (∀ (app : App σ) (d : JsVal) (ds : List JsVal) (w : σ) (onNewQuery : Option (Js σ Unit)),
      jsTrim app.question ≠ "" → app.documents = JsVal.arr (d :: ds) →
      env.http app.world (askRequest app.question) = (HttpResult.rejected err, w) →
      (handleSubmit env onNewQuery app).2.trace = app.trace ++
        [Event.preventDefault,
         Event.request (askRequest app.question) (HttpResult.rejected err),
         Event.toastError
           (if (errorDetail (Thrown.axios err)).truthy then errorDetail (Thrown.axios err)
            else JsVal.str "Failed to get answer")]) ∧
    (∀ (app : App σ) (documentId : JsVal) (w0 w1 : σ) (onDelete : Option (Js σ Unit)),
      env.confirm app.world confirmDeleteMessage = (true, w0) →
      env.http w0 (deleteRequest documentId) = (HttpResult.rejected err, w1) →
      (handleDelete env onDelete documentId app).2.trace = app.trace ++
        [Event.confirm confirmDeleteMessage true,
         Event.request (deleteRequest documentId) (HttpResult.rejected err),
         Event.toastError
           (if (errorDetail (Thrown.axios err)).truthy then errorDetail (Thrown.axios err)
            else JsVal.str "Failed to delete document")]) ∧
    (∀ (app : App σ) (files : List File),
      ∃ (entries : List (List (String × JsVal))) (events : List Event),
        (onDrop env (some (handleDocumentUpload env)) files app).2.uploadedFiles
          = app.uploadedFiles ++ entries ∧
        (onDrop env (some (handleDocumentUpload env)) files app).2.trace = app.trace ++ events ∧
        ∀ file : File,
          Event.request (uploadRequest file) (HttpResult.rejected err) ∈ events →
          [("name", JsVal.str file.name), ("status", JsVal.str "error"),
           ("error",
             if (errorDetail (Thrown.axios err)).truthy then errorDetail (Thrown.axios err)
             else JsVal.str "Upload failed")] ∈ entries ∧
          Event.toastError (JsVal.str (file.name ++ ": " ++
            (if (errorDetail (Thrown.axios err)).truthy then errorDetail (Thrown.axios err)
             else JsVal.str "Upload failed").toJsString)) ∈ events) := by
  refine ⟨?_, ?_, ?_⟩
  · intro app d ds w cb hq hdocs hres
    have hchk := nonempty_list_checks d ds
    rw [← hdocs] at hchk
    rw [handleSubmit_rejected env cb app hq hchk.1 hchk.2 err w hres]
    rfl
  · intro app documentId w0 w1 cb hconfirm hres
    rw [handleDelete_rejected env cb documentId app w0 w1 err hconfirm hres]
    rfl
  · intro app files
    have hlen := uploadResults_length env files app.world
    refine ⟨List.zipWith uploadEntry files (uploadResults env app.world files),
      (List.zipWith uploadEvents files (uploadResults env app.world files)).flatten ++
        fetchEvents "/documents/" "Error fetching documents:"
          (env.http (worldAfterUploads env app.world files) (getRequest "/documents/")).1,
      ?_, ?_, ?_⟩
    · rw [onDrop_dashboard_run, fetchDocuments_run]
    · rw [onDrop_dashboard_run, fetchDocuments_run]
      simp only [List.append_assoc]
    · intro file hmem
      exact rejected_upload_recorded files _ _
        (fetchEvents_no_upload _ _ _) file err hmem

/-- Witness of C6 (as amended): a question rejected with the detail `No documents found`. -/
theorem failure_detail_surfaced_witness :
    (handleSubmit scriptEnv (some (handleNewQuery scriptEnv))
        (scriptedApp [HttpResult.rejected (badRequest (JsVal.str "No documents found"))] []
          (JsVal.arr [notesDocument.toJs]) "Why?")).2.trace
      = [] ++
        [Event.preventDefault,
         Event.request (askRequest "Why?")
           (HttpResult.rejected (badRequest (JsVal.str "No documents found"))),
         Event.toastError
           (if (errorDetail (Thrown.axios (badRequest (JsVal.str "No documents found")))).truthy
            then errorDetail (Thrown.axios (badRequest (JsVal.str "No documents found")))
            else JsVal.str "Failed to get answer")] ∧
    errorDetail (Thrown.axios (badRequest (JsVal.str "No documents found")))
      = JsVal.str "No documents found" ∧
    (errorDetail (Thrown.axios (badRequest (JsVal.str "No documents found")))).truthy = true :=
  ⟨(failure_detail_surfaced scriptEnv (badRequest (JsVal.str "No documents found"))).1
      (scriptedApp [HttpResult.rejected (badRequest (JsVal.str "No documents found"))] []
        (JsVal.arr [notesDocument.toJs]) "Why?")
      notesDocument.toJs [] { responses := [], confirms := [], clock := 1 }
      (some (handleNewQuery scriptEnv)) (by decide) rfl rfl,
    rfl, by decide⟩

/-- Counterexample to C6 as stated: the error response carries a `detail` field, the empty
string, and the message `handleSubmit` passes to `toast.error` is the fallback text, not
the detail. -/
theorem empty_detail_replaced :
    errorDetail (Thrown.axios (badRequest (JsVal.str ""))) = JsVal.str "" ∧
    (handleSubmit scriptEnv (some (handleNewQuery scriptEnv))
        (scriptedApp [HttpResult.rejected (badRequest (JsVal.str ""))] []
          (JsVal.arr [notesDocument.toJs]) "Why?")).2.trace
      = [Event.preventDefault,
         Event.request (askRequest "Why?") (HttpResult.rejected (badRequest (JsVal.str ""))),
         Event.toastError (JsVal.str "Failed to get answer")] :=
  ⟨rfl, rfl⟩

/-- C7. For every batch of accepted files, with `results` the outcomes of the uploads in
the order they were issued: the trace of `onDrop` is, file after file in list order, the
POST of the file followed by the notification of its outcome, and only then the re-fetch
of the Dashboard; so every file is posted, whatever became of the files before it, the
files posted are the input list, and the i-th new entry is the entry of the i-th file,
carrying its name. -/
theorem onDrop_sequential (env : Env σ) (files : List File) (app : App σ) :
    ∃ (results : List HttpResult) (last : HttpResult),
      results.length = files.length ∧
      (onDrop env (some (handleDocumentUpload env)) files app).2.trace =
        app.trace ++
          ((List.zipWith
              (fun file res => [Event.request (uploadRequest file) res, uploadToast file res])
              files results).flatten ++
            fetchEvents "/documents/" "Error fetching documents:" last) ∧
      (onDrop env (some (handleDocumentUpload env)) files app).2.uploadedFiles =
        app.uploadedFiles ++ List.zipWith uploadEntry files results ∧
      postedFiles
        ((List.zipWith
            (fun file res => [Event.request (uploadRequest file) res, uploadToast file res])
            files results).flatten ++
          fetchEvents "/documents/" "Error fetching documents:" last) = files ∧
      (∀ (file : File) (r : HttpResponse),
        JsVal.lookup (uploadEntry file (HttpResult.resolved r)) "originalName" = JsVal.str file.name) ∧
      (∀ (file : File) (e : AxiosError),
        JsVal.lookup (uploadEntry file (HttpResult.rejected e)) "name" = JsVal.str file.name) := by
  have hlen := uploadResults_length env files app.world
  refine ⟨uploadResults env app.world files,
    (env.http (worldAfterUploads env app.world files) (getRequest "/documents/")).1,
    hlen, ?_, ?_, ?_, ?_, ?_⟩
  · rw [onDrop_dashboard_run, fetchDocuments_run]
    simp only [List.append_assoc]
    rfl
  · rw [onDrop_dashboard_run, fetchDocuments_run]
  · have := postedFiles_uploadEvents files _ hlen
    rw [postedFiles_append, postedFiles_fetchEvents, List.append_nil]
    exact this
  · intro file r
    simp only [uploadEntry, successEntry]
    exact lookup_setField_same _ _ _
  · intro file e
    simp [uploadEntry, errorEntry, JsVal.lookup]

/-- C8 (as amended). At every call site and for every way `err` in which the request can be
rejected (an error response with or without a body, no response at all), the rejection is
caught and the handler completes without throwing.  `handleSubmit`, `handleDelete` and
`onDrop` surface it as an error notification.  `fetchDocuments` and `fetchQueryHistory` do
not: they log it with `console.error` and leave every state cell as it was. -/
theorem failures_are_caught (env : Env σ) (err : AxiosError) :
    (∀ (app : App σ) (d : JsVal) (ds : List JsVal) (w : σ) (onNewQuery : Option (Js σ Unit)),
      jsTrim app.question ≠ "" → app.documents = JsVal.arr (d :: ds) →
      env.http app.world (askRequest app.question) = (HttpResult.rejected err, w) →
      (handleSubmit env onNewQuery app).1 = Except.ok () ∧
      ∃ message, (handleSubmit env onNewQuery app).2.trace = app.trace ++
        [Event.preventDefault,
         Event.request (askRequest app.question) (HttpResult.rejected err),
         Event.toastError message]) ∧
    (∀ (app : App σ) (documentId : JsVal) (w0 w1 : σ) (onDelete : Option (Js σ Unit)),
      env.confirm app.world confirmDeleteMessage = (true, w0) →
      env.http w0 (deleteRequest documentId) = (HttpResult.rejected err, w1) →
      (handleDelete env onDelete documentId app).1 = Except.ok () ∧
      ∃ message, (handleDelete env onDelete documentId app).2.trace = app.trace ++
        [Event.confirm confirmDeleteMessage true,
         Event.request (deleteRequest documentId) (HttpResult.rejected err),
         Event.toastError message]) ∧
    (∀ (app : App σ) (files : List File),
      (onDrop env (some (handleDocumentUpload env)) files app).1 = Except.ok () ∧
      ∃ events : List Event,
        (onDrop env (some (handleDocumentUpload env)) files app).2.trace = app.trace ++ events ∧
        events.countP Event.isToastError = failedUploads events ∧
        ∀ file : File,
          Event.request (uploadRequest file) (HttpResult.rejected err) ∈ events →
          Event.toastError (uploadErrorMessage file (Thrown.axios err)) ∈ events) ∧
    (∀ (app : App σ) (w : σ),
      env.http app.world (getRequest "/documents/") = (HttpResult.rejected err, w) →
      fetchDocuments env app =
        (Except.ok (),
          { app with world := w,
                     trace := app.trace ++
                       [Event.request (getRequest "/documents/") (HttpResult.rejected err),
                        Event.consoleError "Error fetching documents:" (Thrown.axios err)] })) ∧
    (∀ (app : App σ) (w : σ),
      env.http app.world (getRequest "/qa/history") = (HttpResult.rejected err, w) →
      fetchQueryHistory env app =
        (Except.ok (),
          { app with world := w,
                     trace := app.trace ++
                       [Event.request (getRequest "/qa/history") (HttpResult.rejected err),
                        Event.consoleError "Error fetching query history:" (Thrown.axios err)] })) := by
  refine ⟨?_, ?_, ?_, ?_, ?_⟩
  · intro app d ds w cb hq hdocs hres
    have hchk := nonempty_list_checks d ds
    rw [← hdocs] at hchk
    rw [handleSubmit_rejected env cb app hq hchk.1 hchk.2 err w hres]
    exact ⟨rfl, _, rfl⟩
  · intro app documentId w0 w1 cb hconfirm hres
    rw [handleDelete_rejected env cb documentId app w0 w1 err hconfirm hres]
    exact ⟨rfl, _, rfl⟩
  · intro app files
    have hlen := uploadResults_length env files app.world
    rw [onDrop_dashboard_run, fetchDocuments_run]
    refine ⟨rfl,
      (List.zipWith uploadEvents files (uploadResults env app.world files)).flatten ++
        fetchEvents "/documents/" "Error fetching documents:"
          (env.http (worldAfterUploads env app.world files) (getRequest "/documents/")).1,
      ?_, ?_, ?_⟩
    · simp only [List.append_assoc]
    · rw [failedUploads_append, failedUploads_fetchEvents, failedUploads_uploadEvents _ _ hlen,
        List.countP_append, countP_isToastError_fetchEvents, toastErrors_uploadEvents _ _ hlen]
    · intro file hmem
      exact (rejected_upload_recorded files _ _ (fetchEvents_no_upload _ _ _) file err hmem).2
  · intro app w hres
    rw [fetchDocuments_run]
    simp [hres, fetchEvents]
  · intro app w hres
    rw [fetchQueryHistory_run]
    simp [hres, fetchEvents]

/-- Witness of C8 (as amended): the five call sites with no response from the network. -/
theorem failures_are_caught_witness :
    (handleSubmit scriptEnv (some (handleNewQuery scriptEnv))
        (scriptedApp [] [] (JsVal.arr [notesDocument.toJs]) "Why?")).1 = Except.ok () ∧
    (handleDelete scriptEnv (some (handleDocumentDelete scriptEnv)) (JsVal.num 1)
        (scriptedApp [] [true] (JsVal.arr [notesDocument.toJs]) "")).1 = Except.ok () ∧
    (onDrop scriptEnv (some (handleDocumentUpload scriptEnv)) [notesTxt, paperPdf]
        (scriptedApp [] [] (JsVal.arr []) "")).1 = Except.ok () ∧
    fetchDocuments scriptEnv (scriptedApp [] [] (JsVal.arr []) "") =
      (Except.ok (),
        { scriptedApp [] [] (JsVal.arr []) "" with
            world := { responses := [], confirms := [], clock := 0 },
            trace := [] ++
              [Event.request (getRequest "/documents/") (HttpResult.rejected networkError),
               Event.consoleError "Error fetching documents:" (Thrown.axios networkError)] }) ∧
    fetchQueryHistory scriptEnv (scriptedApp [] [] (JsVal.arr []) "") =
      (Except.ok (),
        { scriptedApp [] [] (JsVal.arr []) "" with
            world := { responses := [], confirms := [], clock := 0 },
            trace := [] ++
              [Event.request (getRequest "/qa/history") (HttpResult.rejected networkError),
               Event.consoleError "Error fetching query history:" (Thrown.axios networkError)] }) :=
  ⟨((failures_are_caught scriptEnv networkError).1
      (scriptedApp [] [] (JsVal.arr [notesDocument.toJs]) "Why?") notesDocument.toJs []
      { responses := [], confirms := [], clock := 0 } (some (handleNewQuery scriptEnv))
      (by decide) rfl rfl).1,
   ((failures_are_caught scriptEnv networkError).2.1
      (scriptedApp [] [true] (JsVal.arr [notesDocument.toJs]) "") (JsVal.num 1)
      { responses := [], confirms := [], clock := 0 } { responses := [], confirms := [], clock := 0 }
      (some (handleDocumentDelete scriptEnv)) rfl rfl).1,
   ((failures_are_caught scriptEnv networkError).2.2.1
      (scriptedApp [] [] (JsVal.arr []) "") [notesTxt, paperPdf]).1,
   (failures_are_caught scriptEnv networkError).2.2.2.1
      (scriptedApp [] [] (JsVal.arr []) "") { responses := [], confirms := [], clock := 0 } rfl,
   (failures_are_caught scriptEnv networkError).2.2.2.2
      (scriptedApp [] [] (JsVal.arr []) "") { responses := [], confirms := [], clock := 0 } rfl⟩

/-- Counterexample to C8 as stated: a GET /documents/ that gets no response is caught by
`fetchDocuments`, which completes, but the failure is only logged to the console: no
notification is raised. -/
theorem fetchDocuments_failure_silent :
    (fetchDocuments scriptEnv (scriptedApp [] [] (JsVal.arr []) "")).1 = Except.ok () ∧
    (fetchDocuments scriptEnv (scriptedApp [] [] (JsVal.arr []) "")).2.trace
      = [Event.request (getRequest "/documents/") (HttpResult.rejected networkError),
         Event.consoleError "Error fetching documents:" (Thrown.axios networkError)] ∧
    (fetchDocuments scriptEnv (scriptedApp [] [] (JsVal.arr []) "")).2.trace.countP Event.isToastError
      = 0 :=
  ⟨rfl, rfl, rfl⟩

/-! ## The requests one call issues -/

theorem mem_fetchEvents_request (url label : String) (res0 : HttpResult) (req : Request)
    (res : HttpResult) (hmem : Event.request req res ∈ fetchEvents url label res0) :
    req = getRequest url := by
  cases res0 <;> simp [fetchEvents] at hmem <;> exact hmem.1

theorem handleSubmit_requests (env : Env σ) (app : App σ) :
    ∃ events : List Event,
      (handleSubmit env (some (handleNewQuery env)) app).2.trace = app.trace ++ events ∧
      (requestsOf events = [] ∨ requestsOf events = [askRequest app.question] ∨
        requestsOf events = [askRequest app.question, getRequest "/qa/history"]) ∧
      (∀ e, Event.request (askRequest app.question) (HttpResult.rejected e) ∈ events →
        requestsOf events = [askRequest app.question]) := by
  by_cases hq : jsTrim app.question = ""
  · rw [handleSubmit_blank env _ app hq]
    exact ⟨_, rfl, Or.inl rfl, by simp⟩
  cases hnull : app.documents.isNullish with
  | true =>
    obtain ⟨e, he⟩ := handleSubmit_nullish_documents env (some (handleNewQuery env)) app hq hnull
    rw [he]
    exact ⟨_, rfl, Or.inl rfl, by simp⟩
  | false =>
    cases hlen : (app.documents.member "length").strictEqNum 0 with
    | true =>
      rw [handleSubmit_no_documents env _ app hq hnull hlen]
      exact ⟨_, rfl, Or.inl rfl, by simp⟩
    | false =>
      rcases hres : env.http app.world (askRequest app.question) with ⟨res, w⟩
      cases res with
      | rejected e =>
        rw [handleSubmit_rejected env _ app hq hnull hlen e w hres]
        exact ⟨_, rfl, Or.inr (Or.inl rfl), fun _ _ => rfl⟩
      | resolved r =>
        cases hdata : r.data.isNullish with
        | true =>
          rw [handleSubmit_resolved_nullish env _ app hq hnull hlen r w hres hdata]
          exact ⟨_, rfl, Or.inr (Or.inl rfl), fun _ _ => rfl⟩
        | false =>
          rw [handleSubmit_resolved env app hq hnull hlen r w hres hdata]
          refine ⟨_, rfl, Or.inr (Or.inr ?_), ?_⟩
          · rw [requestsOf_append, requestsOf_fetchEvents]
            rfl
          · intro e hmem
            exfalso
            rcases List.mem_append.mp hmem with h | h
            · simp at h
            · have := mem_fetchEvents_request _ _ _ _ _ h
              simp [askRequest, getRequest] at this

theorem handleDelete_requests (env : Env σ) (documentId : JsVal) (app : App σ) :
    ∃ events : List Event,
      (handleDelete env (some (handleDocumentDelete env)) documentId app).2.trace
        = app.trace ++ events ∧
      (requestsOf events = [] ∨ requestsOf events = [deleteRequest documentId] ∨
        requestsOf events = [deleteRequest documentId, getRequest "/documents/"]) ∧
      ((env.confirm app.world confirmDeleteMessage).1 = false → requestsOf events = []) ∧
      (∀ e, Event.request (deleteRequest documentId) (HttpResult.rejected e) ∈ events →
        requestsOf events = [deleteRequest documentId]) := by
  rcases hconfirm : env.confirm app.world confirmDeleteMessage with ⟨answer, w0⟩
  cases answer with
  | false =>
    rw [handleDelete_declined env _ documentId app w0 hconfirm]
    exact ⟨_, rfl, Or.inl rfl, fun _ => rfl, by simp⟩
  | true =>
    rcases hres : env.http w0 (deleteRequest documentId) with ⟨res, w1⟩
    cases res with
    | rejected e =>
      rw [handleDelete_rejected env _ documentId app w0 w1 e hconfirm hres]
      exact ⟨_, rfl, Or.inr (Or.inl rfl), by simp, fun _ _ => rfl⟩
    | resolved r =>
      rw [handleDelete_resolved env documentId app w0 w1 r hconfirm hres]
      refine ⟨_, rfl, Or.inr (Or.inr ?_), by simp, ?_⟩
      · rw [requestsOf_append, requestsOf_fetchEvents]
        rfl
      · intro e hmem
        exfalso
        rcases List.mem_append.mp hmem with h | h
        · simp at h
        · have := mem_fetchEvents_request _ _ _ _ _ h
          simp [deleteRequest, getRequest] at this

/-- C9. Nothing is retried.  One call of `handleSubmit` issues no request, or the one
POST /qa/ask, or that POST followed by the GET /qa/history of the Dashboard, and nothing
after a rejected POST.  One call of `handleDelete` issues no request when the confirmation
is declined, else the one DELETE, followed by the GET /documents/ of the Dashboard when it
succeeded and by nothing when it was rejected.  One call of `onDrop` issues one POST
/documents/upload per file of the batch, in order, whatever their outcomes, then the
GET /documents/ of the Dashboard. -/
theorem nothing_is_retried (env : Env σ) (app : App σ) :
    (∃ events : List Event,
      (handleSubmit env (some (handleNewQuery env)) app).2.trace = app.trace ++ events ∧
      ((requestsOf events).filter Request.isAsk).length ≤ 1 ∧
      (requestsOf events = [] ∨ requestsOf events = [askRequest app.question] ∨
        requestsOf events = [askRequest app.question, getRequest "/qa/history"]) ∧
      (∀ e, Event.request (askRequest app.question) (HttpResult.rejected e) ∈ events →
        requestsOf events = [askRequest app.question])) ∧
    (∀ documentId : JsVal, ∃ events : List Event,
      (handleDelete env (some (handleDocumentDelete env)) documentId app).2.trace
        = app.trace ++ events ∧
      ((requestsOf events).filter Request.isDelete).length ≤ 1 ∧
      (requestsOf events = [] ∨ requestsOf events = [deleteRequest documentId] ∨
        requestsOf events = [deleteRequest documentId, getRequest "/documents/"]) ∧
      ((env.confirm app.world confirmDeleteMessage).1 = false → requestsOf events = []) ∧
      (∀ e, Event.request (deleteRequest documentId) (HttpResult.rejected e) ∈ events →
        requestsOf events = [deleteRequest documentId])) ∧
    (∀ files : List File, ∃ events : List Event,
      (onDrop env (some (handleDocumentUpload env)) files app).2.trace = app.trace ++ events ∧
      requestsOf events = files.map uploadRequest ++ [getRequest "/documents/"] ∧
      (requestsOf events).filter Request.isUpload = files.map uploadRequest ∧
      ((requestsOf events).filter Request.isUpload).length = files.length) := by
  refine ⟨?_, ?_, ?_⟩
  · obtain ⟨events, h1, h2, h3⟩ := handleSubmit_requests env app
    refine ⟨events, h1, ?_, h2, h3⟩
    rcases h2 with h | h | h <;> rw [h] <;>
      simp [List.filter_cons, Request.isAsk, askRequest, getRequest]
  · intro documentId
    obtain ⟨events, h1, h2, h3, h4⟩ := handleDelete_requests env documentId app
    refine ⟨events, h1, ?_, h2, h3, h4⟩
    rcases h2 with h | h | h <;> rw [h] <;>
      simp [List.filter_cons, Request.isDelete, deleteRequest, getRequest]
  · intro files
    have hlen := uploadResults_length env files app.world
    have hreq : requestsOf
        ((List.zipWith uploadEvents files (uploadResults env app.world files)).flatten ++
          fetchEvents "/documents/" "Error fetching documents:"
            (env.http (worldAfterUploads env app.world files) (getRequest "/documents/")).1)
        = files.map uploadRequest ++ [getRequest "/documents/"] := by
      rw [requestsOf_append, requestsOf_uploadEvents _ _ hlen, requestsOf_fetchEvents]
    have hfilter : (files.map uploadRequest ++ [getRequest "/documents/"]).filter Request.isUpload
        = files.map uploadRequest := by
      rw [List.filter_append, filter_isUpload_map_uploadRequest]
      simp [getRequest, Request.isUpload]
    refine ⟨_, ?_, hreq, ?_, ?_⟩
    · rw [onDrop_dashboard_run, fetchDocuments_run]
      simp only [List.append_assoc]
    · rw [hreq, hfilter]
    · rw [hreq, hfilter, List.length_map]

/-- Witness of C9: a declined deletion issues no request. -/
theorem nothing_is_retried_witness :
    ∃ events : List Event,
      (handleDelete scriptEnv (some (handleDocumentDelete scriptEnv)) (JsVal.num 1)
        (scriptedApp [ok200 JsVal.null] [false] (JsVal.arr [notesDocument.toJs]) "")).2.trace
        = [] ++ events ∧
      requestsOf events = [] := by
  obtain ⟨events, h1, _, _, h4, _⟩ :=
    (nothing_is_retried scriptEnv
      (scriptedApp [ok200 JsVal.null] [false] (JsVal.arr [notesDocument.toJs]) "")).2.1 (JsVal.num 1)
  exact ⟨events, h1, h4 rfl⟩

/-! ## The routes -/

/-- C11. For each of the routes `/`, `/login`, `/register`, `/dashboard` and every value of
`isAuthenticated`: `/dashboard` renders the Dashboard when the value is truthy and else
redirects to `/login`; `/login` and `/register` render Login and Register when it is not
truthy and else redirect to `/dashboard`; `/` redirects to `/dashboard` or `/login`.  So
no route renders the Dashboard unless `isAuthenticated` is truthy, none renders Login or
Register unless it is not, and every visit ends, after at most one redirect, on the
Dashboard for an authenticated user and on Login or Register for the others. -/
theorem routes_protected (isAuthenticated : JsVal) :
    routeElement isAuthenticated "/dashboard"
      = some (if isAuthenticated.truthy then Page.dashboard else Page.navigate "/login") ∧
    routeElement isAuthenticated "/"
      = some (Page.navigate (if isAuthenticated.truthy then "/dashboard" else "/login")) ∧
    routeElement isAuthenticated "/login"
      = some (if isAuthenticated.truthy then Page.navigate "/dashboard" else Page.login) ∧
    routeElement isAuthenticated "/register"
      = some (if isAuthenticated.truthy then Page.navigate "/dashboard" else Page.register) ∧
    (∀ path ∈ routePaths,
      (routeElement isAuthenticated path = some Page.dashboard → isAuthenticated.truthy = true) ∧
      (routeElement isAuthenticated path = some Page.login ∨
        routeElement isAuthenticated path = some Page.register → isAuthenticated.truthy = false)) ∧
    visit isAuthenticated 2 "/dashboard"
      = some (if isAuthenticated.truthy then Page.dashboard else Page.login) ∧
    visit isAuthenticated 2 "/"
      = some (if isAuthenticated.truthy then Page.dashboard else Page.login) ∧
    visit isAuthenticated 2 "/login"
      = some (if isAuthenticated.truthy then Page.dashboard else Page.login) ∧
    visit isAuthenticated 2 "/register"
      = some (if isAuthenticated.truthy then Page.dashboard else Page.register) := by
  cases h : isAuthenticated.truthy <;>
    simp [routeElement, routes, ProtectedRoute, visit, routePaths, h]

/-! ## Conversations -/

theorem isUser_not_isBot (m : Message) (h : m.isUser = true) : m.isBot = false := by
  simp only [Message.isUser, beq_iff_eq] at h
  simp [Message.isBot, h]

theorem isBlock_userTurn (question : String) (time : Nat) :
    isBlock [userTurn question time] = true := by
  simp [isBlock, Message.isUser, userTurn]

theorem isBlock_userTurn_botTurn (question : String) (data : JsVal) (t1 t2 : Nat) :
    isBlock [userTurn question t1, botTurn data t2] = true := by
  simp [isBlock, Message.isUser, Message.isBot, userTurn, botTurn]

/-- What one submit does to the conversation: it appends nothing, or one block. -/
theorem submitOnce_conversation (env : Env σ) (s : Submit) (app : App σ) :
    ∃ block : List Message,
      (submitOnce env s app).conversation = app.conversation ++ block ∧
      (block = [] ∨ isBlock block = true) ∧
      (jsTrim s.question = "" → block = []) ∧
      (s.documents = JsVal.arr [] → block = []) ∧
      (∀ e w, env.http app.world (askRequest s.question) = (HttpResult.rejected e, w) →
        block = [] ∨ block = [userTurn s.question (env.now app.world)]) ∧
      (∀ (d : JsVal) (ds : List JsVal), jsTrim s.question ≠ "" → s.documents = JsVal.arr (d :: ds) →
        (∀ e w, env.http app.world (askRequest s.question) = (HttpResult.rejected e, w) →
          block = [userTurn s.question (env.now app.world)]) ∧
        (∀ r w, env.http app.world (askRequest s.question) = (HttpResult.resolved r, w) →
          block =
            if r.data.isNullish then [userTurn s.question (env.now app.world)]
            else [userTurn s.question (env.now app.world), botTurn r.data (env.now w)])) := by
  unfold submitOnce
  by_cases hq : jsTrim s.question = ""
  · rw [handleSubmit_blank env _ _ hq]
    exact ⟨[], by simp, Or.inl rfl, fun _ => rfl, fun _ => rfl, fun _ _ _ => Or.inl rfl,
      fun _ _ h => absurd hq h⟩
  cases hnull : s.documents.isNullish with
  | true =>
    obtain ⟨e, he⟩ := handleSubmit_nullish_documents env (some (handleNewQuery env))
      { app with question := s.question, documents := s.documents } hq hnull
    rw [he]
    refine ⟨[], by simp, Or.inl rfl, fun _ => rfl, fun _ => rfl, fun _ _ _ => Or.inl rfl, ?_⟩
    intro d ds _ hdocs
    rw [hdocs, (nonempty_list_checks d ds).1] at hnull
    exact absurd hnull (by decide)
  | false =>
    cases hlen : (s.documents.member "length").strictEqNum 0 with
    | true =>
      rw [handleSubmit_no_documents env _ _ hq hnull hlen]
      refine ⟨[], by simp, Or.inl rfl, fun _ => rfl, fun _ => rfl, fun _ _ _ => Or.inl rfl, ?_⟩
      intro d ds _ hdocs
      rw [hdocs, (nonempty_list_checks d ds).2] at hlen
      exact absurd hlen (by decide)
    | false =>
      have hdocs : s.documents ≠ JsVal.arr [] := by
        intro h
        rw [h] at hlen
        simp [JsVal.member, JsVal.strictEqNum] at hlen
      rcases hres : env.http app.world (askRequest s.question) with ⟨res, w⟩
      cases res with
      | rejected e =>
        rw [handleSubmit_rejected env _ _ hq hnull hlen e w hres]
        refine ⟨[userTurn s.question (env.now app.world)], rfl, Or.inr (isBlock_userTurn _ _),
          fun h => absurd h hq, fun h => absurd h hdocs, fun _ _ _ => Or.inr rfl, ?_⟩
        intro d ds _ _
        refine ⟨fun _ _ _ => rfl, ?_⟩
        intro r w2 h
        simp at h
      | resolved r =>
        cases hdata : r.data.isNullish with
        | true =>
          rw [handleSubmit_resolved_nullish env _ _ hq hnull hlen r w hres hdata]
          refine ⟨[userTurn s.question (env.now app.world)], rfl, Or.inr (isBlock_userTurn _ _),
            fun h => absurd h hq, fun h => absurd h hdocs, fun _ _ _ => Or.inr rfl, ?_⟩
          intro d ds _ _
          refine ⟨fun _ _ _ => rfl, ?_⟩
          intro r2 w2 h
          simp only [Prod.mk.injEq, HttpResult.resolved.injEq] at h
          rw [← h.1, hdata]
          rfl
        | false =>
          rw [handleSubmit_resolved env _ hq hnull hlen r w hres hdata]
          refine ⟨[userTurn s.question (env.now app.world), botTurn r.data (env.now w)], rfl,
            Or.inr (isBlock_userTurn_botTurn _ _ _ _),
            fun h => absurd h hq, fun h => absurd h hdocs, ?_, ?_⟩
          · intro e w2 h
            simp at h
          · intro d ds _ _
            refine ⟨?_, ?_⟩
            · intro e w2 h
              simp at h
            · intro r2 w2 h
              simp only [Prod.mk.injEq, HttpResult.resolved.injEq] at h
              rw [← h.1, ← h.2, hdata]
              rfl

/-- A conversation that is a concatenation of blocks. -/
theorem blocks_append (conversation block : List Message)
    (hconv : ∃ blocks : List (List Message),
      conversation = blocks.flatten ∧ ∀ b ∈ blocks, isBlock b = true)
    (hblock : block = [] ∨ isBlock block = true) :
    ∃ blocks : List (List Message),
      conversation ++ block = blocks.flatten ∧ ∀ b ∈ blocks, isBlock b = true := by
  obtain ⟨blocks, hflat, hall⟩ := hconv
  rcases hblock with h | h
  · exact ⟨blocks, by simp [h, hflat], hall⟩
  · refine ⟨blocks ++ [block], by simp [hflat], ?_⟩
    intro b hb
    rcases List.mem_append.mp hb with hb | hb
    · exact hall b hb
    · simp only [List.mem_singleton] at hb
      rw [hb]
      exact h

theorem submitAll_blocks (env : Env σ) (steps : List Submit) (app : App σ)
    (hconv : ∃ blocks : List (List Message),
      app.conversation = blocks.flatten ∧ ∀ b ∈ blocks, isBlock b = true) :
    ∃ blocks : List (List Message),
      (submitAll env steps app).conversation = blocks.flatten ∧ ∀ b ∈ blocks, isBlock b = true := by
  induction steps generalizing app with
  | nil => exact hconv
  | cons s rest ih =>
    obtain ⟨block, happ, hblock, _⟩ := submitOnce_conversation env s app
    apply ih (submitOnce env s app)
    rw [happ]
    exact blocks_append _ _ hconv hblock

theorem submitAll_append (env : Env σ) (steps more : List Submit) (app : App σ) :
    submitAll env (steps ++ more) app = submitAll env more (submitAll env steps app) := by
  induction steps generalizing app with
  | nil => rfl
  | cons s rest ih =>
    show submitAll env (rest ++ more) (submitOnce env s app) = _
    exact ih (submitOnce env s app)

theorem submitAll_extends (env : Env σ) (more : List Submit) (app : App σ) :
    app.conversation <+: (submitAll env more app).conversation := by
  induction more generalizing app with
  | nil => exact List.prefix_refl _
  | cons s rest ih =>
    obtain ⟨block, happ, _⟩ := submitOnce_conversation env s app
    have h1 : app.conversation <+: (submitOnce env s app).conversation := by
      rw [happ]
      exact List.prefix_append _ _
    exact List.IsPrefix.trans h1 (ih (submitOnce env s app))

theorem blocks_bot_after_user (blocks : List (List Message))
    (hall : ∀ b ∈ blocks, isBlock b = true) (left : List Message) (m : Message)
    (right : List Message) (hsplit : blocks.flatten = left ++ m :: right) (hbot : m.isBot = true) :
    ∃ (before : List Message) (u : Message), left = before ++ [u] ∧ u.isUser = true := by
  induction blocks generalizing left with
  | nil => simp at hsplit
  | cons block rest ih =>
    have hblock := hall block (List.mem_cons_self _ _)
    have hrest : ∀ b ∈ rest, isBlock b = true := fun b hb => hall b (List.mem_cons_of_mem _ hb)
    match block, hblock with
    | [u], hu =>
      simp only [isBlock] at hu
      cases left with
      | nil =>
        simp only [List.flatten_cons, List.singleton_append, List.nil_append, List.cons.injEq] at hsplit
        rw [← hsplit.1, isUser_not_isBot u hu] at hbot
        exact absurd hbot (by decide)
      | cons x left1 =>
        simp only [List.flatten_cons, List.singleton_append, List.cons_append, List.cons.injEq] at hsplit
        obtain ⟨before, v, hleft, hv⟩ := ih hrest left1 hsplit.2
        exact ⟨x :: before, v, by rw [hleft]; rfl, hv⟩
    | [u, v], huv =>
      simp only [isBlock, Bool.and_eq_true] at huv
      cases left with
      | nil =>
        simp only [List.flatten_cons, List.cons_append, List.nil_append, List.cons.injEq] at hsplit
        rw [← hsplit.1, isUser_not_isBot u huv.1] at hbot
        exact absurd hbot (by decide)
      | cons x left1 =>
        cases left1 with
        | nil =>
          simp only [List.flatten_cons, List.cons_append, List.nil_append, List.cons.injEq] at hsplit
          refine ⟨[], u, ?_, huv.1⟩
          rw [hsplit.1]
          rfl
        | cons y left2 =>
          simp only [List.flatten_cons, List.cons_append, List.nil_append, List.cons.injEq] at hsplit
          obtain ⟨before, w, hleft, hw⟩ := ih hrest left2 hsplit.2.2
          exact ⟨x :: y :: before, w, by rw [hleft]; rfl, hw⟩

theorem isBot_not_isUser (m : Message) (h : m.isBot = true) : m.isUser = false := by
  simp only [Message.isBot, beq_iff_eq] at h
  simp [Message.isUser, h]

theorem blocks_bots_le_users (blocks : List (List Message))
    (hall : ∀ b ∈ blocks, isBlock b = true) :
    blocks.flatten.countP Message.isBot ≤ blocks.flatten.countP Message.isUser := by
  induction blocks with
  | nil => simp
  | cons block rest ih =>
    have hblock := hall block (List.mem_cons_self _ _)
    have hrest := ih (fun b hb => hall b (List.mem_cons_of_mem _ hb))
    rw [List.flatten_cons, List.countP_append, List.countP_append]
    match block, hblock with
    | [u], hu =>
      simp only [isBlock] at hu
      have e1 : [u].countP Message.isBot = 0 := by
        simp [List.countP_cons, isUser_not_isBot u hu]
      have e2 : [u].countP Message.isUser = 1 := by
        simp [List.countP_cons, hu]
      omega
    | [u, v], huv =>
      simp only [isBlock, Bool.and_eq_true] at huv
      have e1 : [u, v].countP Message.isBot = 1 := by
        simp [List.countP_cons, isUser_not_isBot u huv.1, huv.2]
      have e2 : [u, v].countP Message.isUser = 1 := by
        simp [List.countP_cons, huv.1, isBot_not_isUser v huv.2]
      omega

/-- C12. Starting from the empty conversation, after any sequence of submits, each run to
its end before the next: the conversation is a concatenation of blocks, each a user turn
or a user turn followed by one bot turn; every bot turn is immediately preceded by a user
turn; the bot turns are no more than the user turns; and the conversation only grows,
what it was staying a prefix of what it becomes.  One submit appends nothing or one block:
nothing when the question is blank or the documents list empty; for a non-blank question
and a non-empty documents list, exactly the user turn when the ask is rejected (or is
answered with the body `null` or `undefined`), and exactly the user turn followed by the
bot turn of the body otherwise. -/
theorem conversation_blocks (env : Env σ) (steps : List Submit) (app : App σ)
    (hempty : app.conversation = []) :
    (∃ blocks : List (List Message),
      (submitAll env steps app).conversation = blocks.flatten ∧
      ∀ b ∈ blocks, isBlock b = true) ∧
    (∀ (left : List Message) (m : Message) (right : List Message),
      (submitAll env steps app).conversation = left ++ m :: right → m.isBot = true →
      ∃ (before : List Message) (u : Message), left = before ++ [u] ∧ u.isUser = true) ∧
    (submitAll env steps app).conversation.countP Message.isBot
      ≤ (submitAll env steps app).conversation.countP Message.isUser ∧
    (∀ more : List Submit,
      (submitAll env steps app).conversation
        <+: (submitAll env (steps ++ more) app).conversation) ∧
    (∀ (s : Submit) (a : App σ), ∃ block : List Message,
      (submitOnce env s a).conversation = a.conversation ++ block ∧
      (block = [] ∨ isBlock block = true) ∧
      (jsTrim s.question = "" → block = []) ∧
      (s.documents = JsVal.arr [] → block = []) ∧
      (∀ e w, env.http a.world (askRequest s.question) = (HttpResult.rejected e, w) →
        block = [] ∨ block = [userTurn s.question (env.now a.world)]) ∧
      (∀ (d : JsVal) (ds : List JsVal), jsTrim s.question ≠ "" → s.documents = JsVal.arr (d :: ds) →
        (∀ e w, env.http a.world (askRequest s.question) = (HttpResult.rejected e, w) →
          block = [userTurn s.question (env.now a.world)]) ∧
        (∀ r w, env.http a.world (askRequest s.question) = (HttpResult.resolved r, w) →
          block =
            if r.data.isNullish then [userTurn s.question (env.now a.world)]
            else [userTurn s.question (env.now a.world), botTurn r.data (env.now w)]))) := by
  have hstart : ∃ blocks : List (List Message),
      app.conversation = blocks.flatten ∧ ∀ b ∈ blocks, isBlock b = true :=
    ⟨[], by simp [hempty], by simp⟩
  obtain ⟨blocks, hflat, hall⟩ := submitAll_blocks env steps app hstart
  refine ⟨⟨blocks, hflat, hall⟩, ?_, ?_, ?_, ?_⟩
  · intro left m right hsplit hbot
    rw [hflat] at hsplit
    exact blocks_bot_after_user blocks hall left m right hsplit hbot
  · rw [hflat]
    exact blocks_bots_le_users blocks hall
  · intro more
    rw [submitAll_append]
    exact submitAll_extends env more _
  · intro s a
    exact submitOnce_conversation env s a

/-- Witness of C12: the four sample submits leave a user turn with its bot turn, then a
user turn alone. -/
theorem conversation_blocks_witness :
    (submitAll scriptEnv sampleSubmits sampleSession).conversation.map (fun m => m.type)
      = ["user", "bot", "user"] ∧
    (submitAll scriptEnv sampleSubmits sampleSession).conversation.countP Message.isBot
      ≤ (submitAll scriptEnv sampleSubmits sampleSession).conversation.countP Message.isUser ∧
    ∃ blocks : List (List Message),
      (submitAll scriptEnv sampleSubmits sampleSession).conversation = blocks.flatten ∧
      ∀ b ∈ blocks, isBlock b = true :=
  ⟨by decide,
   (conversation_blocks scriptEnv sampleSubmits sampleSession rfl).2.2.1,
   (conversation_blocks scriptEnv sampleSubmits sampleSession rfl).1⟩

/-! ## The entries of the history -/

theorem renderable_iff (v : JsVal) (h : v.renderable = true) : ∃ text, childText v = Except.ok text := by
  unfold JsVal.renderable at h
  cases hc : childText v with
  | ok text => exact ⟨text, rfl⟩
  | error e => simp [hc] at h

theorem isNumber_iff (v : JsVal) (h : v.isNumber = true) : ∃ n, v = JsVal.num n := by
  cases v <;> simp [JsVal.isNumber] at h
  exact ⟨_, rfl⟩

theorem sourceCell_wellFormed (engine : Engine) (fields : List (String × JsVal))
    (h : sourcesWellFormed engine (JsVal.lookup fields "source_documents") = true) :
    ∃ cell text, sourceCell engine.jsonParse (JsVal.obj fields) = Except.ok cell ∧
      sourceCellText cell = Except.ok text := by
  cases hsd : JsVal.lookup fields "source_documents" with
  | undefined =>
    exact ⟨SourceCell.hidden JsVal.undefined, none, by
      simp [sourceCell, getProp, JsVal.isNullish, JsVal.member, hsd, JsVal.truthy, Bind.bind,
        Except.bind], rfl⟩
  | null =>
    exact ⟨SourceCell.hidden JsVal.null, none, by
      simp [sourceCell, getProp, JsVal.isNullish, JsVal.member, hsd, JsVal.truthy, Bind.bind,
        Except.bind], rfl⟩
  | str s =>
    rw [hsd] at h
    by_cases hs : s = ""
    · exact ⟨SourceCell.hidden (JsVal.str s), none, by
        simp [sourceCell, getProp, JsVal.isNullish, JsVal.member, hsd, JsVal.truthy, hs, Bind.bind,
          Except.bind], rfl⟩
    · simp only [sourcesWellFormed, Bool.or_eq_true, beq_iff_eq, hs, false_or] at h
      cases hp : engine.jsonParse s with
      | error e => simp [hp] at h
      | ok parsed =>
        cases parsed with
        | arr items =>
          exact ⟨SourceCell.count (JsVal.num items.length),
            some (toString (items.length : Int) ++ " source(s)"), by
            simp [sourceCell, getProp, JsVal.isNullish, JsVal.member, hsd, JsVal.truthy, hs,
              JsVal.toJsString, hp, Bind.bind, Except.bind], by
            simp [sourceCellText, childText]⟩
        | _ => simp [hp] at h
  | bool b => rw [hsd] at h; simp [sourcesWellFormed] at h
  | num n => rw [hsd] at h; simp [sourcesWellFormed] at h
  | arr items => rw [hsd] at h; simp [sourcesWellFormed] at h
  | obj fs => rw [hsd] at h; simp [sourcesWellFormed] at h

/-- A well-formed record has its element and its entry. -/
theorem entry_of_wellFormed (engine : Engine) (query : JsVal)
    (h : meetsPreconditions engine query = true) (hw : childrenWritable query = true) :
    ∃ element entry, entryElement engine query = Except.ok element ∧
      entryText element = Except.ok entry ∧
      entry.key = query.member "id" ∧
      Except.ok entry.question = childText (query.member "question") ∧
      Except.ok entry.response = childText (query.member "response") := by
  cases query with
  | obj fields =>
    simp only [meetsPreconditions, Bool.and_eq_true] at h
    simp only [childrenWritable, JsVal.member, Bool.and_eq_true] at hw
    obtain ⟨ht, hs⟩ := h
    obtain ⟨hq, hr⟩ := hw
    obtain ⟨q, hq⟩ := renderable_iff _ hq
    obtain ⟨r, hr⟩ := renderable_iff _ hr
    obtain ⟨n, ht⟩ := isNumber_iff _ ht
    obtain ⟨cell, text, hcell, htext⟩ := sourceCell_wellFormed engine fields hs
    refine ⟨{ key := JsVal.lookup fields "id", question := JsVal.lookup fields "question",
              response := JsVal.lookup fields "response",
              time := engine.toFixed n 2 ++ "s",
              date := formatDate engine (JsVal.lookup fields "timestamp"), sources := cell },
      { key := JsVal.lookup fields "id", question := q, response := r,
        time := engine.toFixed n 2 ++ "s",
        date := formatDate engine (JsVal.lookup fields "timestamp"), sources := text },
      ?_, ?_, rfl, ?_, ?_⟩
    · simp [entryElement, getProp, JsVal.isNullish, JsVal.member, ht, formatTime, hcell,
        Bind.bind, Except.bind]
    · simp [entryText, hq, hr, htext, Bind.bind, Except.bind]
    · simp [JsVal.member, hq]
    · simp [JsVal.member, hr]
  | _ => simp [meetsPreconditions] at h

theorem mapExcept_error_of_mem {α β : Type} (f : α → Except Thrown β) (xs : List α) (bad : α)
    (hmem : bad ∈ xs) (e : Thrown) (hbad : f bad = Except.error e) :
    ∃ e2, mapExcept f xs = Except.error e2 := by
  induction xs with
  | nil => simp at hmem
  | cons x rest ih =>
    cases hx : f x with
    | error e1 => exact ⟨e1, by simp [mapExcept, hx]⟩
    | ok y =>
      rcases List.mem_cons.mp hmem with h | h
      · rw [h, hx] at hbad
        cases hbad
      · obtain ⟨e2, he2⟩ := ih h
        exact ⟨e2, by simp [mapExcept, hx, he2]⟩

theorem mapExcept_error_after {α β : Type} (f : α → Except Thrown β) (before : List α)
    (ys : List β) (hbefore : mapExcept f before = Except.ok ys) (bad : α) (after : List α)
    (e : Thrown) (hbad : f bad = Except.error e) :
    mapExcept f (before ++ bad :: after) = Except.error e := by
  induction before generalizing ys with
  | nil => simp [mapExcept, hbad]
  | cons x rest ih =>
    cases hx : f x with
    | error e1 => simp [mapExcept, hx] at hbefore
    | ok y =>
      cases hrest : mapExcept f rest with
      | error e1 => simp [mapExcept, hx, hrest] at hbefore
      | ok zs => simp [mapExcept, hx, ih zs hrest]

/-- The elements and the entries of a list of well-formed records. -/
theorem entries_of_wellFormed (engine : Engine) (records : List JsVal)
    (hrecords : ∀ q ∈ records, meetsPreconditions engine q = true)
    (hwritable : ∀ q ∈ records, childrenWritable q = true) :
    ∃ elements entries, mapExcept (entryElement engine) records = Except.ok elements ∧
      mapExcept entryText elements = Except.ok entries ∧
      entries.length = records.length ∧
      entries.map (fun entry => entry.key) = records.map (fun q => q.member "id") ∧
      entries.map (fun entry => Except.ok entry.question)
        = records.map (fun q => childText (q.member "question")) ∧
      entries.map (fun entry => Except.ok entry.response)
        = records.map (fun q => childText (q.member "response")) := by
  induction records with
  | nil => exact ⟨[], [], rfl, rfl, rfl, rfl, rfl, rfl⟩
  | cons q rest ih =>
    obtain ⟨element, entry, h1, h2, h3, h4, h5⟩ :=
      entry_of_wellFormed engine q (hrecords q (List.mem_cons_self _ _))
        (hwritable q (List.mem_cons_self _ _))
    obtain ⟨elements, entries, g1, g2, g3, g4, g5, g6⟩ :=
      ih (fun r hr => hrecords r (List.mem_cons_of_mem _ hr))
        (fun r hr => hwritable r (List.mem_cons_of_mem _ hr))
    refine ⟨element :: elements, entry :: entries, ?_, ?_, ?_, ?_, ?_, ?_⟩
    · simp [mapExcept, h1, g1]
    · simp [mapExcept, h2, g2]
    · simp [g3]
    · simp [h3, g4]
    · simp only [List.map_cons, h4, g5]
    · simp only [List.map_cons, h5, g6]

theorem QueryHistory_nonempty (engine : Engine) (q : JsVal) (rest : List JsVal) :
    QueryHistory engine (JsVal.arr (q :: rest)) =
      (match mapExcept (entryElement engine) (q :: rest) with
       | Except.error e => Except.error e
       | Except.ok elements => mapExcept entryText elements) := by
  have hlen := (nonempty_list_checks q rest).2
  simp only [QueryHistory, getProp, JsVal.isNullish, Bind.bind, Except.bind, hlen]
  rfl

theorem entryElement_null_time (engine : Engine) (fields : List (String × JsVal))
    (htime : JsVal.lookup fields "response_time" = JsVal.null) :
    ∃ e, formatTime engine JsVal.null = Except.error e ∧
      entryElement engine (JsVal.obj fields) = Except.error e := by
  refine ⟨_, rfl, ?_⟩
  simp [entryElement, getProp, JsVal.isNullish, JsVal.member, htime, formatTime, Bind.bind,
    Except.bind]

theorem entryElement_bad_json (engine : Engine) (fields : List (String × JsVal)) (n : Int)
    (s : String) (e : Thrown)
    (htime : JsVal.lookup fields "response_time" = JsVal.num n)
    (hsd : JsVal.lookup fields "source_documents" = JsVal.str s) (hs : s ≠ "")
    (hparse : engine.jsonParse s = Except.error e) :
    entryElement engine (JsVal.obj fields) = Except.error e := by
  simp [entryElement, getProp, JsVal.isNullish, JsVal.member, htime, formatTime, sourceCell, hsd,
    JsVal.truthy, hs, JsVal.toJsString, hparse, Bind.bind, Except.bind]

theorem entryElement_bad_json_any (engine : Engine) (fields : List (String × JsVal))
    (s : String) (e : Thrown)
    (hsd : JsVal.lookup fields "source_documents" = JsVal.str s) (hs : s ≠ "")
    (hparse : engine.jsonParse s = Except.error e) :
    ∃ e2, entryElement engine (JsVal.obj fields) = Except.error e2 := by
  cases ht : formatTime engine (JsVal.lookup fields "response_time") with
  | error e1 =>
    exact ⟨e1, by
      simp [entryElement, getProp, JsVal.isNullish, JsVal.member, ht, Bind.bind, Except.bind]⟩
  | ok t =>
    exact ⟨e, by
      simp [entryElement, getProp, JsVal.isNullish, JsVal.member, ht, sourceCell, hsd,
        JsVal.truthy, hs, JsVal.toJsString, hparse, Bind.bind, Except.bind]⟩

theorem QueryHistory_list (engine : Engine) (records : List JsVal) (hne : records ≠ []) :
    QueryHistory engine (JsVal.arr records) =
      (match mapExcept (entryElement engine) records with
       | Except.error e => Except.error e
       | Except.ok elements => mapExcept entryText elements) := by
  cases records with
  | nil => exact absurd rfl hne
  | cons q rest => exact QueryHistory_nonempty engine q rest

theorem QueryHistory_empty (engine : Engine) :
    QueryHistory engine (JsVal.arr []) = Except.ok [] := by
  simp [QueryHistory, getProp, JsVal.isNullish, JsVal.member, JsVal.strictEqNum, Bind.bind,
    Except.bind]

/-- C13 (as amended). For every history list in which each record has a number as
`response_time` and a `source_documents` that is absent, empty or a string that parses as
a JSON array, and in which the `question` and the `response` of each record are values
React can write as children (anything but an object, as the strings of the data model
are), rendering `QueryHistory` does not throw and shows exactly one entry per record, in
the order given.  After such records, a
record whose `response_time` is `null` makes the render throw the error of `formatTime`,
and a record with a number as `response_time` whose `source_documents` is a non-empty
string that `JSON.parse` rejects makes it throw the error of `JSON.parse`; anywhere in a
history, either kind of record makes the render throw. -/
theorem QueryHistory_renders (engine : Engine) (records : List JsVal)
    (hrecords : ∀ q ∈ records, meetsPreconditions engine q = true)
    (hwritable : ∀ q ∈ records, childrenWritable q = true) :
    (∃ entries : List HistoryEntry,
      QueryHistory engine (JsVal.arr records) = Except.ok entries ∧
      entries.length = records.length ∧
      entries.map (fun entry => entry.key) = records.map (fun q => q.member "id") ∧
      entries.map (fun entry => Except.ok entry.question)
        = records.map (fun q => childText (q.member "question")) ∧
      entries.map (fun entry => Except.ok entry.response)
        = records.map (fun q => childText (q.member "response"))) ∧
    (∀ (fields : List (String × JsVal)) (after : List JsVal),
      JsVal.lookup fields "response_time" = JsVal.null →
      ∃ e, formatTime engine JsVal.null = Except.error e ∧
        QueryHistory engine (JsVal.arr (records ++ JsVal.obj fields :: after)) = Except.error e) ∧
    (∀ (fields : List (String × JsVal)) (after : List JsVal) (n : Int) (s : String) (e : Thrown),
      JsVal.lookup fields "response_time" = JsVal.num n →
      JsVal.lookup fields "source_documents" = JsVal.str s → s ≠ "" →
      engine.jsonParse s = Except.error e →
      QueryHistory engine (JsVal.arr (records ++ JsVal.obj fields :: after)) = Except.error e) ∧
    (∀ (history : List JsVal) (fields : List (String × JsVal)),
      JsVal.obj fields ∈ history →
      (JsVal.lookup fields "response_time" = JsVal.null ∨
        ∃ s e, JsVal.lookup fields "source_documents" = JsVal.str s ∧ s ≠ "" ∧
          engine.jsonParse s = Except.error e) →
      ∃ e, QueryHistory engine (JsVal.arr history) = Except.error e) := by
  obtain ⟨elements, entries, g1, g2, g3, g4, g5, g6⟩ :=
    entries_of_wellFormed engine records hrecords hwritable
  refine ⟨?_, ?_, ?_, ?_⟩
  · refine ⟨entries, ?_, g3, g4, g5, g6⟩
    cases records with
    | nil =>
      simp only [mapExcept, Except.ok.injEq] at g1
      rw [← g1] at g2
      simp only [mapExcept, Except.ok.injEq] at g2
      rw [← g2]
      exact QueryHistory_empty engine
    | cons q rest =>
      rw [QueryHistory_nonempty, g1]
      exact g2
  · intro fields after htime
    obtain ⟨e, he1, he2⟩ := entryElement_null_time engine fields htime
    refine ⟨e, he1, ?_⟩
    rw [QueryHistory_list engine _ (by simp),
      mapExcept_error_after (entryElement engine) records elements g1 _ after e he2]
  · intro fields after n s e htime hsd hs hparse
    have he := entryElement_bad_json engine fields n s e htime hsd hs hparse
    rw [QueryHistory_list engine _ (by simp),
      mapExcept_error_after (entryElement engine) records elements g1 _ after e he]
  · intro history fields hmem hbad
    have hne : history ≠ [] := List.ne_nil_of_mem hmem
    have hthrows : ∃ e, entryElement engine (JsVal.obj fields) = Except.error e := by
      rcases hbad with h | ⟨s, e, hsd, hs, hparse⟩
      · obtain ⟨e, _, he⟩ := entryElement_null_time engine fields h
        exact ⟨e, he⟩
      · exact entryElement_bad_json_any engine fields s e hsd hs hparse
    obtain ⟨e, he⟩ := hthrows
    obtain ⟨e2, he2⟩ := mapExcept_error_of_mem (entryElement engine) history _ hmem e he
    exact ⟨e2, by rw [QueryHistory_list engine history hne, he2]⟩

/-- Witness of C13 (as amended): two well-formed records are shown as two entries, in order; a record
without a `response_time` after them, or one whose sources are not a JSON text, makes the
render throw. -/
theorem QueryHistory_renders_witness :
    (∃ entries : List HistoryEntry,
      QueryHistory sampleEngine (JsVal.arr [whyRecord, howRecord]) = Except.ok entries ∧
      entries.length = [whyRecord, howRecord].length ∧
      entries.map (fun entry => entry.key)
        = [whyRecord, howRecord].map (fun q => q.member "id") ∧
      entries.map (fun entry => Except.ok entry.question)
        = [whyRecord, howRecord].map (fun q => childText (q.member "question")) ∧
      entries.map (fun entry => Except.ok entry.response)
        = [whyRecord, howRecord].map (fun q => childText (q.member "response"))) ∧
    (QueryHistory sampleEngine (JsVal.arr [whyRecord, howRecord])).toOption.map
        (fun entries => entries.map (fun entry => (entry.question, entry.time, entry.sources)))
      = some [("Why?", "2.00s", some "2 source(s)"), ("How?", "1.00s", none)] ∧
    (∃ e, formatTime sampleEngine JsVal.null = Except.error e ∧
      QueryHistory sampleEngine (JsVal.arr [whyRecord, howRecord, untimedRecord])
        = Except.error e) ∧
    QueryHistory sampleEngine (JsVal.arr [whyRecord, howRecord, garbledRecord])
      = Except.error (Thrown.syntaxError "Unexpected token") :=
  ⟨(QueryHistory_renders sampleEngine [whyRecord, howRecord] (by decide) (by decide)).1,
   by decide,
   (QueryHistory_renders sampleEngine [whyRecord, howRecord] (by decide) (by decide)).2.1
     [("id", JsVal.num 7), ("question", JsVal.str "When?"), ("response", JsVal.str "Soon."),
      ("response_time", JsVal.null), ("timestamp", JsVal.str "2024-05-02T09:32:00")] [] rfl,
   (QueryHistory_renders sampleEngine [whyRecord, howRecord] (by decide) (by decide)).2.2.1
     [("id", JsVal.num 8), ("question", JsVal.str "Where?"), ("response", JsVal.str "Here."),
      ("response_time", JsVal.num 3), ("timestamp", JsVal.str "2024-05-02T09:33:00"),
      ("source_documents", JsVal.str "notes.txt")] [] 3 "notes.txt"
     (Thrown.syntaxError "Unexpected token") rfl rfl (by decide) rfl⟩


/-! ## The source count of an entry -/

theorem mapExcept_get {α β : Type} (f : α → Except Thrown β) (xs : List α) (ys : List β)
    (h : mapExcept f xs = Except.ok ys) :
    ys.length = xs.length ∧
    ∀ (i : Nat) (x : α) (y : β), xs[i]? = some x → ys[i]? = some y → f x = Except.ok y := by
  induction xs generalizing ys with
  | nil =>
    simp only [mapExcept, Except.ok.injEq] at h
    subst h
    exact ⟨rfl, fun i x y hx _ => by simp at hx⟩
  | cons x0 rest ih =>
    cases hx0 : f x0 with
    | error e => simp [mapExcept, hx0] at h
    | ok y0 =>
      cases hrest : mapExcept f rest with
      | error e => simp [mapExcept, hx0, hrest] at h
      | ok zs =>
        simp only [mapExcept, hx0, hrest, Except.ok.injEq] at h
        subst h
        obtain ⟨hlen, hget⟩ := ih zs hrest
        refine ⟨by simp [hlen], ?_⟩
        intro i x y hx hy
        cases i with
        | zero =>
          simp only [List.getElem?_cons_zero, Option.some.injEq] at hx hy
          rw [← hx, ← hy]
          exact hx0
        | succ j =>
          simp only [List.getElem?_cons_succ] at hx hy
          exact hget j x y hx hy

theorem entryElement_sources (engine : Engine) (query : JsVal) (element : EntryElement)
    (h : entryElement engine query = Except.ok element) :
    sourceCell engine.jsonParse query = Except.ok element.sources := by
  unfold entryElement at h
  simp only [Bind.bind, Except.bind] at h
  repeat' split at h
  all_goals first
    | (simp only [Except.ok.injEq] at h; subst h; assumption)
    | simp at h

theorem entryText_sources (element : EntryElement) (entry : HistoryEntry)
    (h : entryText element = Except.ok entry) :
    sourceCellText element.sources = Except.ok entry.sources := by
  unfold entryText at h
  simp only [Bind.bind, Except.bind] at h
  repeat' split at h
  all_goals first
    | (simp only [Except.ok.injEq] at h; subst h; assumption)
    | simp at h

theorem QueryHistory_ok (engine : Engine) (records : List JsVal) (entries : List HistoryEntry)
    (h : QueryHistory engine (JsVal.arr records) = Except.ok entries) :
    ∃ elements, mapExcept (entryElement engine) records = Except.ok elements ∧
      mapExcept entryText elements = Except.ok entries := by
  cases records with
  | nil =>
    rw [QueryHistory_empty] at h
    simp only [Except.ok.injEq] at h
    subst h
    exact ⟨[], rfl, rfl⟩
  | cons q rest =>
    rw [QueryHistory_nonempty] at h
    cases hel : mapExcept (entryElement engine) (q :: rest) with
    | error e => simp [hel] at h
    | ok elements =>
      rw [hel] at h
      exact ⟨elements, rfl, h⟩

/-- C10. Whenever `QueryHistory` renders a history, it shows one entry per record, and
the entry of a record whose `source_documents` is a JSON text that `JSON.parse` turns into
a list of n elements shows the source count `n source(s)`, while the entry of a record
whose `source_documents` is absent, `null` or the empty string shows no source count.
A history whose records meet the preconditions on `response_time` and `source_documents`
and have a `question` and a `response` React can write is rendered.  (`JSON.parse` is the
one of the engine; all that is used of it is that the empty string is not a JSON text.) -/
theorem QueryHistory_source_counts (engine : Engine)
    (hjson : ∀ v, engine.jsonParse "" ≠ Except.ok v) :
    (∀ (records : List JsVal) (entries : List HistoryEntry),
      QueryHistory engine (JsVal.arr records) = Except.ok entries →
      entries.length = records.length ∧
      ∀ (i : Nat) (fields : List (String × JsVal)) (entry : HistoryEntry),
        records[i]? = some (JsVal.obj fields) → entries[i]? = some entry →
        (∀ (text : String) (items : List JsVal),
          JsVal.lookup fields "source_documents" = JsVal.str text →
          engine.jsonParse text = Except.ok (JsVal.arr items) →
          entry.sources = some (toString items.length ++ " source(s)")) ∧
        (JsVal.lookup fields "source_documents" = JsVal.undefined ∨
          JsVal.lookup fields "source_documents" = JsVal.null ∨
          JsVal.lookup fields "source_documents" = JsVal.str "" →
          entry.sources = none)) ∧
    (∀ records : List JsVal,
      (∀ q ∈ records, meetsPreconditions engine q = true) →
      (∀ q ∈ records, childrenWritable q = true) →
      ∃ entries : List HistoryEntry,
        QueryHistory engine (JsVal.arr records) = Except.ok entries) := by
  constructor
  · intro records entries hrender
    obtain ⟨elements, hel, hen⟩ := QueryHistory_ok engine records entries hrender
    obtain ⟨hlen1, hget1⟩ := mapExcept_get _ _ _ hel
    obtain ⟨hlen2, hget2⟩ := mapExcept_get _ _ _ hen
    refine ⟨by rw [hlen2, hlen1], ?_⟩
    intro i fields entry hrec hentry
    have hi : i < elements.length := by
      have := (List.getElem?_eq_some_iff.mp hrec).1
      omega
    have helem : elements[i]? = some elements[i] := List.getElem?_eq_getElem hi
    have hcell := entryElement_sources engine _ _ (hget1 i _ _ hrec helem)
    have htext := entryText_sources _ _ (hget2 i _ _ helem hentry)
    constructor
    · intro text items hfield hparse
      have hne : text ≠ "" := by
        intro h
        rw [h] at hparse
        exact hjson _ hparse
      have hc : sourceCell engine.jsonParse (JsVal.obj fields)
          = Except.ok (SourceCell.count (JsVal.num items.length)) := by
        simp [sourceCell, getProp, JsVal.isNullish, JsVal.member, hfield, JsVal.truthy, hne,
          JsVal.toJsString, hparse, Bind.bind, Except.bind]
      rw [hc] at hcell
      simp only [Except.ok.injEq] at hcell
      rw [← hcell] at htext
      have hlen : (toString ((items.length : Nat) : Int)) = toString items.length := rfl
      simp only [sourceCellText, childText, hlen, Except.ok.injEq] at htext
      exact htext.symm
    · intro h
      have hc : ∃ v, sourceCell engine.jsonParse (JsVal.obj fields)
          = Except.ok (SourceCell.hidden v) ∧ sourceCellText (SourceCell.hidden v) = Except.ok none := by
        rcases h with h | h | h
        · exact ⟨JsVal.undefined, by
            simp [sourceCell, getProp, JsVal.isNullish, JsVal.member, h, JsVal.truthy, Bind.bind,
              Except.bind], rfl⟩
        · exact ⟨JsVal.null, by
            simp [sourceCell, getProp, JsVal.isNullish, JsVal.member, h, JsVal.truthy, Bind.bind,
              Except.bind], rfl⟩
        · exact ⟨JsVal.str "", by
            simp [sourceCell, getProp, JsVal.isNullish, JsVal.member, h, JsVal.truthy, Bind.bind,
              Except.bind], rfl⟩
      obtain ⟨v, hv, hnone⟩ := hc
      rw [hv] at hcell
      simp only [Except.ok.injEq] at hcell
      rw [← hcell, hnone] at htext
      simp only [Except.ok.injEq] at htext
      exact htext.symm
  · intro records hpre hwrite
    obtain ⟨elements, entries, g1, g2, _⟩ := entries_of_wellFormed engine records hpre hwrite
    refine ⟨entries, ?_⟩
    cases records with
    | nil =>
      simp only [mapExcept, Except.ok.injEq] at g1
      rw [← g1] at g2
      simp only [mapExcept, Except.ok.injEq] at g2
      rw [← g2]
      exact QueryHistory_empty engine
    | cons q rest =>
      rw [QueryHistory_nonempty, g1]
      exact g2

/-- Witness of C10: the history of the two sample records is rendered; the entry of the
record with two sources shows `2 source(s)`, the entry of the record without the field
shows no count. -/
theorem QueryHistory_source_counts_witness :
    QueryHistory sampleEngine (JsVal.arr [whyRecord, howRecord]) = Except.ok sampleEntries ∧
    sampleEntries.map (fun entry => entry.sources) = [some "2 source(s)", none] ∧
    sampleEntries.length = [whyRecord, howRecord].length ∧
    (∀ entry, sampleEntries[0]? = some entry →
      entry.sources = some (toString [JsVal.num 3, JsVal.num 7].length ++ " source(s)")) ∧
    (∀ entry, sampleEntries[1]? = some entry → entry.sources = none) :=
  ⟨rfl, rfl,
   ((QueryHistory_source_counts sampleEngine (by intro v h; simp [sampleEngine, sampleJsonParse] at h)).1
      [whyRecord, howRecord] sampleEntries rfl).1,
   fun entry hentry =>
     ((((QueryHistory_source_counts sampleEngine
        (by intro v h; simp [sampleEngine, sampleJsonParse] at h)).1
        [whyRecord, howRecord] sampleEntries rfl).2 0 _ entry rfl hentry).1
        "[3, 7]" [JsVal.num 3, JsVal.num 7] rfl rfl),
   fun entry hentry =>
     ((((QueryHistory_source_counts sampleEngine
        (by intro v h; simp [sampleEngine, sampleJsonParse] at h)).1
        [whyRecord, howRecord] sampleEntries rfl).2 1 _ entry rfl hentry).2 (Or.inl rfl))⟩


/-- Counterexample to C13 as stated: a history of one record whose `response_time` is a
number and whose `source_documents` is absent, so that both preconditions are met, but
whose `question` is an object: the body of the component builds its element, and React
refuses to write it, so the render throws. -/
theorem QueryHistory_nested_question_throws :
    meetsPreconditions sampleEngine nestedRecord = true ∧
    (mapExcept (entryElement sampleEngine) [nestedRecord]).toOption.map List.length = some 1 ∧
    QueryHistory sampleEngine (JsVal.arr [nestedRecord])
      = Except.error (Thrown.error "Objects are not valid as a React child") :=
  ⟨by decide, by decide, rfl⟩

end Properties

end DocQA
